import Mathlib

/-!
Verification of the kinematic-chain calibration core
(`kinova_tracking/kinematic_chain_calibration.py`).

Real-valued data (marker positions, generalized coordinates, weights) is
modelled over `ℝ`.  Matrices are lists of rows / lists of columns as noted at
each definition; Python slices `v[a:b]` are translated as `(v.drop a).take
(b - a)`, which has the same truncating behaviour.  External collaborators
(the biorbd model, the two NLP solvers, the analytical-jacobian module and
the standard-library random sampler) are parameters of the embedding: the
code only consumes their outputs.
-/

/-! ### Generic list helpers -/

/-- Sum of squared componentwise differences: `np.linalg.norm(a - b) ** 2`
for equal-length vectors. -/
def sqDist (a b : List ℝ) : ℝ :=
  (List.zipWith (fun x y => (x - y) ^ 2) a b).sum

/-- Fancy-indexing read `v[idx]` (numpy gather); out-of-range reads default
to 0, which never happens at the call sites used by the theorems. -/
def gather (v : List ℝ) (idx : List ℕ) : List ℝ :=
  idx.map (fun i => v.getD i 0)

/-- Fancy-indexing write `v[idx] = vals` (numpy scatter). -/
def setAt (v : List ℝ) (idx : List ℕ) (vals : List ℝ) : List ℝ :=
  (idx.zip vals).foldl (fun acc iv => acc.set iv.1 iv.2) v

/-- Python substring test `"Table" in s`. -/
def strHasTable (s : String) : Bool :=
  let pat := "Table".toList
  let cs := s.toList
  (List.range (cs.length + 1)).any (fun i => pat = (cs.drop i).take pat.length)

/-- Python `list.index(s)`: index of the first occurrence (the call sites
only use it on members, where Python would not raise). -/
def idxOfStr : List String → String → ℕ
  | [], _ => 0
  | a :: l, s => if a = s then 0 else idxOfStr l s + 1

/-- `[markers_model.index(i) for i in markers_model if "Table" in i]`
(constructor, line 115). -/
def tableMarkersIdxOf (mm : List String) : List ℕ :=
  (mm.filter (fun s => strHasTable s)).map (fun s => idxOfStr mm s)

/-- `[i for i, value in enumerate(markers_model) if "Table" in value]`
(`step_2` line 709, `objective_function_param` line 530). -/
def tableIdxEnum (mm : List String) : List ℕ :=
  (List.range mm.length).filter (fun i => strHasTable (mm.getD i ""))

/-- `[i for i, value in enumerate(markers_model) if "Table" not in value]`
(`step_2` line 710, `objective_function_param` line 531). -/
def wuIdxEnum (mm : List String) : List ℕ :=
  (List.range mm.length).filter (fun i => !strHasTable (mm.getD i ""))

/-! ### Penalty library (`penalty_*`, `theta_pivot_penalty`) -/

/-- `penalty_table_markers` (lines 378-403).  `tIdx` is
`self.table_markers_idx`, `vect` the flattened model marker positions,
`tableMarkers` the experimental table-marker columns (each a 3-vector). -/
def penalty_table_markers (tIdx : List ℕ) (vect : List ℝ)
    (tableMarkers : List (List ℝ)) : List ℝ × List ℝ :=
  let t0 := tIdx.getD 0 0
  let t1 := tIdx.getD 1 0
  let table5_xyz := (vect.drop (t0 * 3)).take 3
  let table6_xy := ((vect.drop (t1 * 3)).take 3).take 2
  let table_xp := (tableMarkers.getD 0 []) ++ (tableMarkers.getD 1 []).take 2
  (table5_xyz ++ table6_xy, table_xp)

/-- `theta_pivot_penalty` (lines 405-430): one-sided penalty on
`q[-2] + q[-1]` against the fixed limit `7π/10`. -/
noncomputable def theta_pivot_penalty (q : List ℝ) : List ℝ × List ℝ :=
  let theta_part1_3 := q.getD (q.length - 2) 0 + q.getD (q.length - 1) 0
  let theta_part1_3_lim := 7 * Real.pi / 10
  if theta_part1_3 > theta_part1_3_lim then
    ([theta_part1_3], [theta_part1_3_lim])
  else
    ([0], [0])

/-- Scalar pivot residual: model value minus target value of the (singleton)
pivot penalty lists. -/
noncomputable def pivotResidual (q : List ℝ) : ℝ :=
  ((theta_pivot_penalty q).1.getD 0 0) - ((theta_pivot_penalty q).2.getD 0 0)

/-- `penalty_open_loop_markers` (lines 432-460): every marker whose name
differs from both table-marker names contributes its full 3-D model
position (from `vect`) and experimental position (column of `olm`). -/
def penalty_open_loop_markers (mm : List String) (tIdx : List ℕ)
    (vect : List ℝ) (olm : List (List ℝ)) : List ℝ × List ℝ :=
  let t0name := mm.getD (tIdx.getD 0 0) ""
  let t1name := mm.getD (tIdx.getD 1 0) ""
  let sel := mm.filter (fun name => name ≠ t0name ∧ name ≠ t1name)
  ((sel.map (fun name => (vect.drop (idxOfStr mm name * 3)).take 3)).flatten,
   (sel.map (fun name => olm.getD (idxOfStr mm name) [])).flatten)

/-- `penalty_rotation_matrix` (lines 462-485).  `rotAt q` is the external
model's terminal-segment global rotation matrix (3 rows). -/
def penalty_rotation_matrix (rotAt : List ℝ → List (List ℝ)) (x : List ℝ) :
    List ℝ × List ℝ :=
  let R := rotAt x
  let g := fun (i j : ℕ) => (R.getD i []).getD j 0
  ([g 2 0, g 2 1, g 0 2, g 1 2, g 2 2 - 1], [0, 0, 0, 0, 0])

/-- `penalty_q_open_loop` (lines 487-509): continuity pairs, one per entry
of `x`, against `q_init`. -/
def penalty_q_open_loop (x qInit : List ℝ) : List ℝ × List ℝ :=
  (x, (List.range x.length).map (fun i => qInit.getD i 0))

/-! ### Claim C5: closed-loop contact residual layout -/

theorem take_two_of_le {v : List ℝ} (h : 2 ≤ v.length) :
    v.take 2 = [v.getD 0 0, v.getD 1 0] := by
  match v, h with
  | a :: b :: rest, _ => simp [List.take, List.getD]

theorem take_three_of_le {v : List ℝ} (h : 3 ≤ v.length) :
    v.take 3 = [v.getD 0 0, v.getD 1 0, v.getD 2 0] := by
  match v, h with
  | a :: b :: c :: rest, _ => simp [List.take, List.getD]

theorem getD_drop_eq (v : List ℝ) (n i : ℕ) (h : n + i < v.length) :
    (v.drop n).getD i 0 = v.getD (n + i) 0 := by
  have hn : n < v.length := lt_of_le_of_lt (Nat.le_add_right n i) h
  rw [List.getD_eq_getElem?_getD, List.getD_eq_getElem?_getD,
    List.getElem?_drop]

/-- Claim C5: for two table-marker indices, the closed-loop penalty yields
exactly 5 model components (full 3-D of the first table marker, X/Y of the
second) and 5 matching targets, whatever the number of other markers. -/
theorem claim_C5 (t0 t1 : ℕ) (vect : List ℝ) (tms : List (List ℝ))
    (hv0 : t0 * 3 + 3 ≤ vect.length) (hv1 : t1 * 3 + 2 ≤ vect.length)
    (hc0 : (tms.getD 0 []).length = 3) (hc1 : 2 ≤ (tms.getD 1 []).length) :
    (penalty_table_markers [t0, t1] vect tms).1 =
      [vect.getD (t0 * 3) 0, vect.getD (t0 * 3 + 1) 0, vect.getD (t0 * 3 + 2) 0,
       vect.getD (t1 * 3) 0, vect.getD (t1 * 3 + 1) 0] ∧
    (penalty_table_markers [t0, t1] vect tms).2 =
      [(tms.getD 0 []).getD 0 0, (tms.getD 0 []).getD 1 0, (tms.getD 0 []).getD 2 0,
       (tms.getD 1 []).getD 0 0, (tms.getD 1 []).getD 1 0] ∧
    (penalty_table_markers [t0, t1] vect tms).1.length = 5 ∧
    (penalty_table_markers [t0, t1] vect tms).2.length = 5 := by
  have key : penalty_table_markers [t0, t1] vect tms =
      ((vect.drop (t0 * 3)).take 3 ++ ((vect.drop (t1 * 3)).take 3).take 2,
       tms.getD 0 [] ++ (tms.getD 1 []).take 2) := rfl
  have hd0 : 3 ≤ (vect.drop (t0 * 3)).length := by
    rw [List.length_drop]; omega
  have hd1 : 2 ≤ (vect.drop (t1 * 3)).length := by
    rw [List.length_drop]; omega
  have e1 : (vect.drop (t0 * 3)).take 3 =
      [vect.getD (t0 * 3) 0, vect.getD (t0 * 3 + 1) 0, vect.getD (t0 * 3 + 2) 0] := by
    rw [take_three_of_le hd0, getD_drop_eq vect (t0 * 3) 0 (by omega),
      getD_drop_eq vect (t0 * 3) 1 (by omega), getD_drop_eq vect (t0 * 3) 2 (by omega)]
    norm_num
  have e2 : ((vect.drop (t1 * 3)).take 3).take 2 =
      [vect.getD (t1 * 3) 0, vect.getD (t1 * 3 + 1) 0] := by
    rw [List.take_take]
    have h23 : min 2 3 = 2 := by norm_num
    rw [h23, take_two_of_le hd1, getD_drop_eq vect (t1 * 3) 0 (by omega),
      getD_drop_eq vect (t1 * 3) 1 (by omega)]
    norm_num
  have e3 : tms.getD 0 [] =
      [(tms.getD 0 []).getD 0 0, (tms.getD 0 []).getD 1 0, (tms.getD 0 []).getD 2 0] := by
    have := take_three_of_le (v := tms.getD 0 []) (by omega)
    rwa [List.take_of_length_le (by omega)] at this
  have e4 : (tms.getD 1 []).take 2 =
      [(tms.getD 1 []).getD 0 0, (tms.getD 1 []).getD 1 0] := take_two_of_le hc1
  rw [key, e1, e2, e4]
  rw [show tms.getD 0 [] ++ [(tms.getD 1 []).getD 0 0, (tms.getD 1 []).getD 1 0] =
      [(tms.getD 0 []).getD 0 0, (tms.getD 0 []).getD 1 0, (tms.getD 0 []).getD 2 0] ++
      [(tms.getD 1 []).getD 0 0, (tms.getD 1 []).getD 1 0] from by rw [← e3]]
  exact ⟨rfl, rfl, rfl, rfl⟩

/-- Witness for C5 at a concrete input: 3 model markers (9 position
components, table markers occupying indices 1 and 2) and concrete
experimental columns. -/
theorem claim_C5_witness :
    (1 * 3 + 3 ≤ ([10, 11, 12, 13, 14, 15, 16, 17, 18] : List ℝ).length) ∧
    (penalty_table_markers [1, 2] [10, 11, 12, 13, 14, 15, 16, 17, 18]
        [[1, 2, 3], [4, 5, 6]]).1 = [13, 14, 15, 16, 17] := by
  have h := claim_C5 1 2 [10, 11, 12, 13, 14, 15, 16, 17, 18]
    [[1, 2, 3], [4, 5, 6]] (by simp) (by simp) (by simp) (by simp)
  refine ⟨by simp, ?_⟩
  rw [h.1]
  norm_num [List.getD]

/-! ### Claim C6: pivot-angle penalty -/

/-- Value of `q[-2] + q[-1]` as the source computes it (for `q` of length
at least 2 this matches Python's negative indexing). -/
def thetaPart13 (q : List ℝ) : ℝ :=
  q.getD (q.length - 2) 0 + q.getD (q.length - 1) 0

/-- Claim C6: writing `q[-2] + q[-1] = 7π/10 + δ`, the pivot residual is
`δ` when `δ > 0` and exactly `0` otherwise (in particular at the boundary
`δ = 0`), and it vanishes exactly when `δ ≤ 0`. -/
theorem claim_C6 (q : List ℝ) (δ : ℝ) (h2 : 2 ≤ q.length)
    (hsum : thetaPart13 q = 7 * Real.pi / 10 + δ) :
    pivotResidual q = (if 0 < δ then δ else 0) ∧
    (pivotResidual q = 0 ↔ δ ≤ 0) := by
  have hθ : q.getD (q.length - 2) 0 + q.getD (q.length - 1) 0 =
      7 * Real.pi / 10 + δ := hsum
  by_cases hpos : 0 < δ
  · have hgt : q.getD (q.length - 2) 0 + q.getD (q.length - 1) 0 >
        7 * Real.pi / 10 := by rw [hθ]; linarith
    have hres : pivotResidual q = δ := by
      rw [pivotResidual, theta_pivot_penalty]
      simp only [hgt, if_pos]
      simp only [List.getD_cons_zero]
      rw [hθ]; ring
    constructor
    · rw [hres, if_pos hpos]
    · rw [hres]
      constructor
      · intro h0; linarith
      · intro h0; linarith
  · have hle : ¬ (q.getD (q.length - 2) 0 + q.getD (q.length - 1) 0 >
        7 * Real.pi / 10) := by rw [hθ]; push_neg at hpos ⊢; linarith
    have hres : pivotResidual q = 0 := by
      rw [pivotResidual, theta_pivot_penalty]
      simp only [hle, if_neg]
      simp
    constructor
    · rw [hres, if_neg hpos]
    · rw [hres]
      constructor
      · intro _; push_neg at hpos; exact hpos
      · intro _; rfl

/-- Witness for C6: at `q = [7π/10, 1]` the sum is `7π/10 + 1`, so the
residual equals `1`. -/
theorem claim_C6_witness :
    (2 ≤ ([7 * Real.pi / 10, 1] : List ℝ).length) ∧
    pivotResidual [7 * Real.pi / 10, 1] = 1 := by
  have h := claim_C6 [7 * Real.pi / 10, 1] 1 (by simp)
    (by simp [thetaPart13, List.getD])
  refine ⟨by simp, ?_⟩
  rw [h.1, if_pos one_pos]

/-! ### Frame selection (`frame_selector`, constructor line 140) -/

/-- `frame_selector` (lines 356-376): draw `frames_needed` indices from
`range(frames)` with the standard library's `random.sample`, then sort
ascending.  The sampler is an external collaborator, passed explicitly; a
`none` result models the `ValueError` that `random.sample` raises when the
sample is larger than the population.  Since the drawn indices are distinct,
ascending order determines the sorted list uniquely, so `insertionSort`
coincides with Python's `list.sort()` here. -/
def frame_selector (sample : ℕ → ℕ → Option (List ℕ))
    (framesNeeded frames : ℕ) : Option (List ℕ) :=
  (sample frames framesNeeded).map (fun l => List.insertionSort (· ≤ ·) l)

/-- Deterministic sampler instance: the first `k` elements of the
population, a possible draw of `random.sample` under some seed. -/
def sample_first (n k : ℕ) : Option (List ℕ) :=
  if k ≤ n then some (List.range k) else none

/-- Sampler instance returning `[1, ..., k]`, a possible draw of
`random.sample(range(n), k)` whenever `k < n`. -/
def sample_offset (n k : ℕ) : Option (List ℕ) :=
  if k ≤ n then some ((List.range k).map (fun i => i + 1)) else none

theorem sample_first_ok (n k : ℕ) (h : k ≤ n) :
    ∃ l, sample_first n k = some l ∧ l.length = k ∧ l.Nodup ∧ ∀ x ∈ l, x < n := by
  refine ⟨List.range k, ?_, List.length_range k, List.nodup_range k, ?_⟩
  · rw [sample_first, if_pos h]
  · intro x hx
    exact lt_of_lt_of_le (List.mem_range.mp hx) h

theorem sample_first_fail (n k : ℕ) (h : n < k) : sample_first n k = none := by
  rw [sample_first, if_neg (not_le.mpr h)]

/-- Claim C9: whenever the sampler satisfies the contract of
`random.sample` (a draw of `needed` distinct indices below `total` when
`needed ≤ total`, an error otherwise), `frame_selector` returns `needed`
strictly increasing distinct indices in `[0, total)`, fails for
`needed > total`, and is a pure function of the sampler (same seed, same
output). -/
theorem claim_C9 (sample : ℕ → ℕ → Option (List ℕ))
    (hOk : ∀ n k, k ≤ n →
      ∃ l, sample n k = some l ∧ l.length = k ∧ l.Nodup ∧ ∀ x ∈ l, x < n)
    (hFail : ∀ n k, n < k → sample n k = none) (needed total : ℕ) :
    (needed ≤ total → ∃ l, frame_selector sample needed total = some l ∧
       l.length = needed ∧ List.Pairwise (· < ·) l ∧ ∀ x ∈ l, x < total) ∧
    (total < needed → frame_selector sample needed total = none) ∧
    (∀ sample', (∀ n k, sample' n k = sample n k) →
       frame_selector sample' needed total = frame_selector sample needed total) := by
  refine ⟨?_, ?_, ?_⟩
  · intro hle
    obtain ⟨l, hs, hlen, hnodup, hmem⟩ := hOk total needed hle
    have hperm : (List.insertionSort (· ≤ ·) l).Perm l :=
      List.perm_insertionSort (· ≤ ·) l
    refine ⟨List.insertionSort (· ≤ ·) l, ?_, ?_, ?_, ?_⟩
    · rw [frame_selector, hs, Option.map_some']
    · rw [hperm.length_eq, hlen]
    · have hsorted : List.Sorted (· ≤ ·) (List.insertionSort (· ≤ ·) l) :=
        List.sorted_insertionSort (· ≤ ·) l
      have hnd : (List.insertionSort (· ≤ ·) l).Nodup := hperm.symm.nodup hnodup
      exact (hsorted.and hnd).imp (fun hab => lt_of_le_of_ne hab.1 hab.2)
    · intro x hx
      exact hmem x (hperm.mem_iff.mp hx)
  · intro hlt
    rw [frame_selector, hFail total needed hlt, Option.map_none']
  · intro sample' hsame
    rw [frame_selector, frame_selector, hsame]

/-- Witness for C9: the `sample_first` sampler, with `total = 100`,
`needed = 20` (succeeds with 20 strictly increasing indices) and
`needed = 150` (fails). -/
theorem claim_C9_witness :
    (∃ l, frame_selector sample_first 20 100 = some l ∧
       l.length = 20 ∧ List.Pairwise (· < ·) l ∧ ∀ x ∈ l, x < 100) ∧
    frame_selector sample_first 150 100 = none := by
  constructor
  · exact (claim_C9 sample_first sample_first_ok sample_first_fail 20 100).1
      (by norm_num)
  · exact (claim_C9 sample_first sample_first_ok sample_first_fail 150 100).2.1
      (by norm_num)

/-- Frame selection as performed by the constructor: line 137 stores
`randomize_param_step_frames`, but line 140 calls `frame_selector`
unconditionally and the flag is never read again (the deterministic
fallback in `frame_selector` is commented out in the source). -/
def kcc_list_frames_param_step (sample : ℕ → ℕ → Option (List ℕ))
    (randomizeParamStepFrames : Bool)
    (nbFramesParamStep nbFramesIkStep : ℕ) : Option (List ℕ) :=
  frame_selector sample nbFramesParamStep nbFramesIkStep

/-- Counterexample to C10: with randomization "disabled"
(`randomize_param_step_frames = False`) and a sampler that draws
`[1, 2]` out of `range(4)` (a legitimate draw of `random.sample`), the
selected frames are `[1, 2]`, not the first `needed` indices `[0, 1]`:
the flag has no effect. -/
theorem claim_C10_counterexample :
    kcc_list_frames_param_step sample_offset false 2 4 = some [1, 2] ∧
    kcc_list_frames_param_step sample_offset false 2 4 ≠ some (List.range 2) := by
  constructor
  · rfl
  · intro h
    simp only [kcc_list_frames_param_step, frame_selector, sample_offset] at h
    norm_num at h
    exact absurd h (by decide)

/-- Amended C10: the `randomize_param_step_frames` flag is accepted and
stored but never consulted; frame selection always takes the randomized
path, whatever the flag's value. -/
theorem claim_C10_amended (sample : ℕ → ℕ → Option (List ℕ))
    (r r' : Bool) (nbFramesParamStep nbFramesIkStep : ℕ) :
    kcc_list_frames_param_step sample r nbFramesParamStep nbFramesIkStep =
      kcc_list_frames_param_step sample r' nbFramesParamStep nbFramesIkStep ∧
    kcc_list_frames_param_step sample r nbFramesParamStep nbFramesIkStep =
      frame_selector sample nbFramesParamStep nbFramesIkStep :=
  ⟨rfl, rfl⟩

/-! ### Constructor (`__init__`, lines 63-176) and claim C8 -/

/-- Per-element weight list assembled by the constructor (lines 147-170):
`[w0] * (len(closed_loop)*3 - 1) + [w1] * (3*|tracked not closed|) +
[w3] * (nb_q_rows - len(parameter_dofs)) + [w2] + [w4] * 5`. -/
def weight_list (closedLoopMarkers trackedMarkers : List String)
    (nbQrows nbParams : ℕ) (w : List ℝ) : List ℝ :=
  List.replicate (closedLoopMarkers.length * 3 - 1) (w.getD 0 0) ++
  List.replicate
    ((trackedMarkers.filter (fun i => !(closedLoopMarkers.contains i))).length * 3)
    (w.getD 1 0) ++
  List.replicate (nbQrows - nbParams) (w.getD 3 0) ++
  [w.getD 2 0] ++
  List.replicate 5 (w.getD 4 0)

/-- Derived state assembled by a successful construction. -/
structure KccState where
  markersModel : List String
  closedLoopMarkers : List String
  trackedMarkers : List String
  tableMarkersIdx : List ℕ
  modelMarkersIdx : List ℕ
  qParameterIndex : List ℕ
  qKinematicIndex : List ℕ
  weightListParam : List ℝ
  weightListIk : List ℝ
  listFramesParamStep : List ℕ

def except_is_ok {ε α : Type} : Except ε α → Bool
  | .ok _ => true
  | .error _ => false

/-- `__init__` (lines 63-176) up to its last fallible statement, in source
order: (1) every `markers_model` name must be a model marker name (lines
94-98, first offender raises); (2) shape check of the marker array against
`(3, len(markers_model), nb_frames_ik_step)` (lines 102-108); (3)
`self.markers_model` is only assigned inside the loop of (1), so an empty
`markers_model` leaves it unset and line 115 raises `AttributeError`; (4)
dof-name lookups for parameter and kinematic dofs (lines 123-124) raise for
unknown names; (5) `frame_selector` (line 140) fails when more calibration
frames are requested than available; (6) the weight vectors are indexed at
positions 0-4 (lines 147-166), so fewer than 5 entries raises.  Names in
`closed_loop_markers` and `tracked_markers` are never looked up. -/
def kcc_construct (modelDofs modelMarkerNames markersModel : List String)
    (markersShape : ℕ × ℕ × ℕ)
    (closedLoopMarkers trackedMarkers parameterDofs kinematicDofs : List String)
    (weightsParam weightsIk : List ℝ) (nbQrows : ℕ)
    (nbFramesIkStep nbFramesParamStep : ℕ)
    (sample : ℕ → ℕ → Option (List ℕ)) : Except String KccState :=
  match markersModel.find? (fun m => !(modelMarkerNames.contains m)) with
  | some m => .error ("The following marker is not in markers_model:" ++ m)
  | none =>
    if markersShape ≠ (3, markersModel.length, nbFramesIkStep) then
      .error "markers and markers model must have same shape"
    else if markersModel = [] then
      .error "AttributeError: markers_model was never assigned"
    else if (parameterDofs.find? (fun d => !(modelDofs.contains d))).isSome then
      .error "ValueError: parameter dof not in model dofs"
    else if (kinematicDofs.find? (fun d => !(modelDofs.contains d))).isSome then
      .error "ValueError: kinematic dof not in model dofs"
    else
      match frame_selector sample nbFramesParamStep nbFramesIkStep with
      | none => .error "ValueError: sample larger than population"
      | some listFrames =>
        if weightsParam.length < 5 ∨ weightsIk.length < 5 then
          .error "IndexError: weight index out of range"
        else
          .ok
            { markersModel := markersModel
              closedLoopMarkers := closedLoopMarkers
              trackedMarkers := trackedMarkers
              tableMarkersIdx := tableMarkersIdxOf markersModel
              modelMarkersIdx := trackedMarkers.map (idxOfStr trackedMarkers)
              qParameterIndex := parameterDofs.map (idxOfStr modelDofs)
              qKinematicIndex := kinematicDofs.map (idxOfStr modelDofs)
              weightListParam := weight_list closedLoopMarkers trackedMarkers
                nbQrows parameterDofs.length weightsParam
              weightListIk := weight_list closedLoopMarkers trackedMarkers
                nbQrows parameterDofs.length weightsIk
              listFramesParamStep := listFrames }

/-- Counterexample to C8: construction succeeds although
`closed_loop_markers = ["Bogus"]` names a marker that exists neither in
`markers_model` nor in the model: only `markers_model` is validated. -/
theorem claim_C8_counterexample :
    except_is_ok (kcc_construct ["d0", "d1", "d2"] ["M0", "TableA", "TableB"]
      ["M0", "TableA", "TableB"] (3, 3, 2) ["Bogus"] ["M0"] ["d2"] ["d0", "d1"]
      [1, 1, 1, 1, 1] [1, 1, 1, 1, 1] 3 2 1 sample_first) = true ∧
    ("Bogus" ∈ (["M0", "TableA", "TableB"] : List String)) = False ∧
    ("Bogus" ∈ (["M0", "TableA", "TableB"] : List String) → False) := by
  refine ⟨rfl, by simp, by simp⟩

/-- Amended C8: construction validates `markers_model` against the model's
marker names — it fails whenever a `markers_model` name is missing there,
and on success every `markers_model` name is a model marker name — while
`closed_loop_markers` and `tracked_markers` are never validated:
construction success is unchanged under replacing them arbitrarily. -/
theorem claim_C8_amended (modelDofs modelMarkerNames markersModel : List String)
    (markersShape : ℕ × ℕ × ℕ)
    (closedLoopMarkers trackedMarkers parameterDofs kinematicDofs : List String)
    (weightsParam weightsIk : List ℝ) (nbQrows : ℕ)
    (nbFramesIkStep nbFramesParamStep : ℕ)
    (sample : ℕ → ℕ → Option (List ℕ)) :
    ((∃ m ∈ markersModel, m ∉ modelMarkerNames) →
      ∃ e, kcc_construct modelDofs modelMarkerNames markersModel markersShape
        closedLoopMarkers trackedMarkers parameterDofs kinematicDofs
        weightsParam weightsIk nbQrows nbFramesIkStep nbFramesParamStep sample =
        .error e) ∧
    (∀ st, kcc_construct modelDofs modelMarkerNames markersModel markersShape
        closedLoopMarkers trackedMarkers parameterDofs kinematicDofs
        weightsParam weightsIk nbQrows nbFramesIkStep nbFramesParamStep sample =
        .ok st → ∀ m ∈ markersModel, m ∈ modelMarkerNames) ∧
    (∀ cl tr : List String,
      except_is_ok (kcc_construct modelDofs modelMarkerNames markersModel
        markersShape cl tr parameterDofs kinematicDofs
        weightsParam weightsIk nbQrows nbFramesIkStep nbFramesParamStep sample) =
      except_is_ok (kcc_construct modelDofs modelMarkerNames markersModel
        markersShape closedLoopMarkers trackedMarkers parameterDofs kinematicDofs
        weightsParam weightsIk nbQrows nbFramesIkStep nbFramesParamStep sample)) := by
  refine ⟨?_, ?_, ?_⟩
  · rintro ⟨m, hm, hnot⟩
    have hsome : (markersModel.find? (fun m => !(modelMarkerNames.contains m))).isSome := by
      rw [List.find?_isSome]
      exact ⟨m, hm, by simpa using hnot⟩
    obtain ⟨m', hm'⟩ := Option.isSome_iff_exists.mp hsome
    refine ⟨"The following marker is not in markers_model:" ++ m', ?_⟩
    rw [kcc_construct, hm']
  · intro st hok m hm
    cases hfind : markersModel.find? (fun m => !(modelMarkerNames.contains m)) with
    | some m' =>
      rw [kcc_construct, hfind] at hok
      exact absurd hok (by simp)
    | none =>
      have := List.find?_eq_none.mp hfind m hm
      simpa using this
  · intro cl tr
    rw [kcc_construct, kcc_construct]
    cases markersModel.find? (fun m => !(modelMarkerNames.contains m)) with
    | some m => rfl
    | none =>
      split_ifs <;> try rfl
      cases frame_selector sample nbFramesParamStep nbFramesIkStep with
      | none => rfl
      | some lf => rfl

/-- Witness for the amended C8: a concrete construction with a
`markers_model` name (`"Zed"`) missing from the model's marker names
fails, via the first conjunct of the amended claim. -/
theorem claim_C8_amended_witness :
    ∃ e, kcc_construct ["d0", "d1", "d2"] ["M0", "TableA", "TableB"]
      ["M0", "Zed"] (3, 2, 2) ["TableA"] ["M0"] ["d2"] ["d0", "d1"]
      [1, 1, 1, 1, 1] [1, 1, 1, 1, 1] 3 2 1 sample_first = .error e :=
  (claim_C8_amended ["d0", "d1", "d2"] ["M0", "TableA", "TableB"]
      ["M0", "Zed"] (3, 2, 2) ["TableA"] ["M0"] ["d2"] ["d0", "d1"]
      [1, 1, 1, 1, 1] [1, 1, 1, 1, 1] 3 2 1 sample_first).1
    ⟨"Zed", by simp, by simp⟩

/-! ### Outer calibration loop of `solve` (lines 249-347) and claim C2 -/

/-- Loop-control state of `solve`: current and previous tracking residual
and the iteration counter. -/
structure SolveLoopState where
  epsN : ℝ
  epsNm1 : ℝ
  iteration : ℕ

/-- The `while abs(delta_epsilon_markers) > threshold` loop of `solve`
(lines 249-347), abstracted over the ε value produced by the n-th
ParamStep+IKStep pair (`epsSeq n`).  One iteration saves `ε_n` into
`ε_{n-1}`, obtains the new `ε_n`, and recomputes the difference; the loop
exits (`some`) when `|ε_n − ε_{n-1}| ≤ threshold` and `none` models fuel
exhaustion (the source has no iteration cap). -/
noncomputable def solveLoopGo (epsSeq : ℕ → ℝ) (threshold : ℝ) :
    ℕ → SolveLoopState → Option SolveLoopState
  | 0, _ => none
  | fuel + 1, s =>
    if |s.epsN - s.epsNm1| > threshold then
      solveLoopGo epsSeq threshold fuel ⟨epsSeq s.iteration, s.epsN, s.iteration + 1⟩
    else
      some s

/-- Entry state of the loop: `epsilon_markers_n = 10`,
`epsilon_markers_n_minus_1 = 0` (lines 250-252), iteration 0. -/
noncomputable def solve_loop (epsSeq : ℕ → ℝ) (threshold : ℝ) (fuel : ℕ) :
    Option SolveLoopState :=
  solveLoopGo epsSeq threshold fuel ⟨10, 0, 0⟩

/-- Claim C2: the outer loop terminates only on the delta criterion — any
state it exits in satisfies `|ε_n − ε_{n−1}| ≤ threshold`; whenever
`|Δε| > threshold` it runs another ParamStep+IKStep pair regardless of the
absolute value of ε; and the continue/exit decision depends only on the
difference `ε_n − ε_{n−1}`, never on an absolute bound on ε alone. -/
theorem claim_C2 (epsSeq : ℕ → ℝ) (threshold : ℝ) :
    (∀ fuel s s', solveLoopGo epsSeq threshold fuel s = some s' →
       |s'.epsN - s'.epsNm1| ≤ threshold) ∧
    (∀ fuel s, threshold < |s.epsN - s.epsNm1| →
       solveLoopGo epsSeq threshold (fuel + 1) s =
         solveLoopGo epsSeq threshold fuel
           ⟨epsSeq s.iteration, s.epsN, s.iteration + 1⟩) ∧
    (∀ s t : SolveLoopState, s.epsN - s.epsNm1 = t.epsN - t.epsNm1 →
       ((solveLoopGo epsSeq threshold 1 s).isSome ↔
        (solveLoopGo epsSeq threshold 1 t).isSome)) := by
  refine ⟨?_, ?_, ?_⟩
  · intro fuel
    induction fuel with
    | zero => intro s s' h; exact absurd h (by rw [solveLoopGo]; simp)
    | succ n ih =>
      intro s s' h
      rw [solveLoopGo] at h
      by_cases hc : |s.epsN - s.epsNm1| > threshold
      · rw [if_pos hc] at h
        exact ih _ _ h
      · rw [if_neg hc] at h
        cases h
        exact not_lt.mp hc
  · intro fuel s hc
    rw [solveLoopGo, if_pos hc]
  · intro s t hst
    have hone : ∀ u : SolveLoopState, (solveLoopGo epsSeq threshold 1 u).isSome =
        !(decide (|u.epsN - u.epsNm1| > threshold)) := by
      intro u
      rw [solveLoopGo]
      by_cases hc : |u.epsN - u.epsNm1| > threshold
      · rw [if_pos hc, solveLoopGo]
        simp [hc]
      · rw [if_neg hc]
        simp [hc]
    rw [hone s, hone t, hst]

/-! ### The calibration object and the IK step `step_2` (lines 679-802) -/

/-- Attributes of a `KinematicChainCalibration` instance consumed by
`step_2`, `objective_ik_list`, `ik_jacobian` and
`objective_function_param`, plus the external collaborators: the biorbd
model (`markersAt` = `biorbd_model.markers`, flattened per marker;
`rotAt` = `globalJCS(..).rot()`), the five analytical jacobian blocks of
the external `jacobians` module, and the two per-frame solver backends
(`solveLS` = `scipy.optimize.least_squares(...).x`,
`solveIp`/`ipSuccess` = `minimize_ipopt(...)`'s solution and success
flag for the f-th per-frame call; each per-frame call happens at most
once, so indexing the outcome by the frame number loses nothing). -/
structure KCC where
  markersModel : List String
  closedLoopMarkers : List String
  trackedMarkers : List String
  qParameterIndex : List ℕ
  qKinematicIndex : List ℕ
  nbQ : ℕ
  nbQrows : ℕ
  weightsParam : List ℝ
  weightsIk : List ℝ
  markersAt : List ℝ → List (List ℝ)
  rotAt : List ℝ → List (List ℝ)
  jacTable : List ℝ → List (List ℝ)
  jacModel : List ℝ → List (List ℝ)
  jacRot : List ℝ → List (List ℝ)
  jacCont : List ℝ → List (List ℝ)
  jacPivot : List ℝ → List (List ℝ)
  nbFramesIkStep : ℕ
  qIkInitialGuess0 : List ℝ
  qOutput0 : ℕ → List ℝ
  xp : ℕ → List (List ℝ)
  solveLS : ℕ → List ℝ → List ℝ
  solveIp : ℕ → List ℝ → List ℝ
  ipSuccess : ℕ → Bool
  listFramesParamStep : List ℕ

/-- The per-frame scalar residual computed at the end of each `step_2`
frame iteration (lines 788-795): `espilon_markers` is reset to 0 and then
accumulates the squared distances between model and experimental markers
for `j in range(index_table_markers[0])` — the markers preceding the
first table marker. -/
noncomputable def frame_epsilon (k : KCC) (col : List ℝ) (f : ℕ) : ℝ :=
  ((List.range ((tableIdxEnum k.markersModel).getD 0 0)).map (fun j =>
    sqDist ((k.markersAt col).getD j []) ((k.xp f).getD j []))).sum

/-- The frame loop of `step_2` (lines 723-795).  `todo` frames remain,
`f` is the current frame, `qOut` the `q_output` array (one column per
frame) and `eps` the current value of `espilon_markers` (recomputed from
scratch each frame, so the value returned at the end is the **last**
frame's).  The warm start `x0` is the initial guess's column 0 for frame
0 and the previous output column otherwise (lines 725-726).  The ipopt
branch raises when the backend reports non-success (lines 781-782); the
least-squares branch accepts whatever the solver returns; any other
solver string raises (lines 784-785).  (With 0 frames the source would
raise `NameError` at the `return`; the theorems assume at least one
frame.) -/
noncomputable def step2Go (k : KCC) (solver : String) :
    ℕ → ℕ → (ℕ → List ℝ) → ℝ → Except String ((ℕ → List ℝ) × ℝ)
  | 0, _, qOut, eps => .ok (qOut, eps)
  | todo + 1, f, qOut, eps =>
    let x0 := if f = 0 then gather k.qIkInitialGuess0 k.qKinematicIndex
              else gather (qOut (f - 1)) k.qKinematicIndex
    if solver = "leastsquare" then
      let col := setAt (qOut f) k.qKinematicIndex (k.solveLS f x0)
      step2Go k solver todo (f + 1) (fun g => if g = f then col else qOut g)
        (frame_epsilon k col f)
    else if solver = "ipopt" then
      let col := setAt (qOut f) k.qKinematicIndex (k.solveIp f x0)
      if k.ipSuccess f = false then .error "This optimization failed"
      else step2Go k solver todo (f + 1) (fun g => if g = f then col else qOut g)
        (frame_epsilon k col f)
    else .error "This solver is not implemented"

/-- `step_2` (lines 679-802): run the frame loop over all
`nb_frames_ik_step` frames and return the final `q_output` together with
the returned `espilon_markers`. -/
noncomputable def step_2 (k : KCC) (solver : String) :
    Except String ((ℕ → List ℝ) × ℝ) :=
  step2Go k solver k.nbFramesIkStep 0 k.qOutput0 0

/-- Closed form of the column the least-squares branch of `step_2` writes
for frame `f`: each frame is warm-started from the previous computed
column (frame 0 from the initial guess). -/
noncomputable def step2LsCol (k : KCC) : ℕ → List ℝ
  | 0 => setAt (k.qOutput0 0) k.qKinematicIndex
      (k.solveLS 0 (gather k.qIkInitialGuess0 k.qKinematicIndex))
  | f + 1 => setAt (k.qOutput0 (f + 1)) k.qKinematicIndex
      (k.solveLS (f + 1) (gather (step2LsCol k f) k.qKinematicIndex))

theorem sqDist_self (a : List ℝ) : sqDist a a = 0 := by
  induction a with
  | nil => rfl
  | cons x xs ih =>
    rw [sqDist, List.zipWith_cons_cons, List.sum_cons]
    rw [sqDist] at ih
    rw [ih]
    ring

theorem step2Go_ls_succ (k : KCC) (todo f : ℕ) (qOut : ℕ → List ℝ) (eps : ℝ) :
    step2Go k "leastsquare" (todo + 1) f qOut eps =
      step2Go k "leastsquare" todo (f + 1)
        (fun g => if g = f then setAt (qOut f) k.qKinematicIndex
            (k.solveLS f (if f = 0 then gather k.qIkInitialGuess0 k.qKinematicIndex
              else gather (qOut (f - 1)) k.qKinematicIndex)) else qOut g)
        (frame_epsilon k (setAt (qOut f) k.qKinematicIndex
            (k.solveLS f (if f = 0 then gather k.qIkInitialGuess0 k.qKinematicIndex
              else gather (qOut (f - 1)) k.qKinematicIndex))) f) := by
  rw [step2Go]
  exact if_pos rfl

theorem step2Go_ip_succ (k : KCC) (todo f : ℕ) (qOut : ℕ → List ℝ) (eps : ℝ) :
    step2Go k "ipopt" (todo + 1) f qOut eps =
      (if k.ipSuccess f = false then .error "This optimization failed"
       else step2Go k "ipopt" todo (f + 1)
        (fun g => if g = f then setAt (qOut f) k.qKinematicIndex
            (k.solveIp f (if f = 0 then gather k.qIkInitialGuess0 k.qKinematicIndex
              else gather (qOut (f - 1)) k.qKinematicIndex)) else qOut g)
        (frame_epsilon k (setAt (qOut f) k.qKinematicIndex
            (k.solveIp f (if f = 0 then gather k.qIkInitialGuess0 k.qKinematicIndex
              else gather (qOut (f - 1)) k.qKinematicIndex))) f)) := by
  rw [step2Go]
  rw [if_neg (by decide : ¬ (("ipopt" : String) = "leastsquare"))]
  exact if_pos rfl

/-- Invariant of the least-squares frame loop: starting at frame `f` with
`q_output` agreeing with the computed columns below `f` and untouched
above, the loop succeeds and returns the last computed column's residual,
with the final `q_output` holding the computed columns. -/
theorem step2Go_ls_inv (k : KCC) : ∀ todo f qOut eps, 1 ≤ todo →
    (∀ g, g < f → qOut g = step2LsCol k g) →
    (∀ g, f ≤ g → qOut g = k.qOutput0 g) →
    ∃ qO, step2Go k "leastsquare" todo f qOut eps =
        .ok (qO, frame_epsilon k (step2LsCol k (f + todo - 1)) (f + todo - 1)) ∧
      ∀ g, g < f + todo → qO g = step2LsCol k g := by
  intro todo
  induction todo with
  | zero => intro f qOut eps h; omega
  | succ n ih =>
    intro f qOut eps _ hlow hhigh
    have hcol : setAt (qOut f) k.qKinematicIndex
        (k.solveLS f (if f = 0 then gather k.qIkInitialGuess0 k.qKinematicIndex
          else gather (qOut (f - 1)) k.qKinematicIndex)) = step2LsCol k f := by
      cases f with
      | zero =>
        rw [hhigh 0 (le_refl 0)]
        simp [step2LsCol]
      | succ m =>
        rw [hhigh (m + 1) (le_refl (m + 1))]
        rw [if_neg (Nat.succ_ne_zero m)]
        have hm : qOut (m + 1 - 1) = step2LsCol k m := by
          have := hlow m (by omega)
          simpa using this
        rw [hm]
        rfl
    rw [step2Go_ls_succ, hcol]
    cases n with
    | zero =>
      refine ⟨fun g => if g = f then step2LsCol k f else qOut g, ?_, ?_⟩
      · rw [step2Go]
        have harith : f + 1 - 1 = f := by omega
        rw [harith]
      · intro g hg
        by_cases hgf : g = f
        · dsimp only
          rw [if_pos hgf, hgf]
        · dsimp only
          rw [if_neg hgf]
          exact hlow g (by omega)
    | succ m =>
      have hstep := ih (f + 1)
        (fun g => if g = f then step2LsCol k f else qOut g)
        (frame_epsilon k (step2LsCol k f) f) (by omega)
        (by
          intro g hg
          by_cases hgf : g = f
          · dsimp only
            rw [if_pos hgf, hgf]
          · dsimp only
            rw [if_neg hgf]
            exact hlow g (by omega))
        (by
          intro g hg
          dsimp only
          rw [if_neg (by omega : ¬ g = f)]
          exact hhigh g (by omega))
      obtain ⟨qO, hrun, hcols⟩ := hstep
      refine ⟨qO, ?_, ?_⟩
      · rw [hrun]
        have harith : f + 1 + (m + 1) - 1 = f + (m + 1 + 1) - 1 := by omega
        rw [harith]
      · intro g hg
        exact hcols g (by omega)

/-- The least-squares branch never reads the ipopt success flags. -/
theorem step2Go_ls_ipsucc (k : KCC) (b : ℕ → Bool) : ∀ todo f qOut eps,
    step2Go { k with ipSuccess := b } "leastsquare" todo f qOut eps =
    step2Go k "leastsquare" todo f qOut eps := by
  intro todo
  induction todo with
  | zero => intro f qOut eps; rfl
  | succ n ih =>
    intro f qOut eps
    rw [step2Go_ls_succ, step2Go_ls_succ]
    exact ih (f + 1) _ _

/-- The ipopt branch errors exactly when some processed frame's backend
call reports non-success. -/
theorem step2Go_ip_error_iff (k : KCC) : ∀ todo f qOut eps,
    (∃ e, step2Go k "ipopt" todo f qOut eps = .error e) ↔
    (∃ j, f ≤ j ∧ j < f + todo ∧ k.ipSuccess j = false) := by
  intro todo
  induction todo with
  | zero =>
    intro f qOut eps
    constructor
    · rintro ⟨e, he⟩
      rw [step2Go] at he
      exact absurd he (by simp)
    · rintro ⟨j, h1, h2, _⟩; omega
  | succ n ih =>
    intro f qOut eps
    rw [step2Go_ip_succ]
    by_cases hs : k.ipSuccess f = false
    · rw [if_pos hs]
      constructor
      · intro _
        exact ⟨f, le_refl f, by omega, hs⟩
      · intro _
        exact ⟨"This optimization failed", rfl⟩
    · rw [if_neg hs]
      rw [ih (f + 1) _ _]
      constructor
      · rintro ⟨j, h1, h2, h3⟩
        exact ⟨j, by omega, by omega, h3⟩
      · rintro ⟨j, h1, h2, h3⟩
        refine ⟨j, ?_, by omega, h3⟩
        rcases Nat.eq_or_lt_of_le h1 with heq | hlt
        · exact absurd (heq ▸ h3) hs
        · omega

/-! ### Claims C1 and C7 -/

/-- The quantity described by the spec for C1 (stated for comparison, not
part of the source): the open-loop residual accumulated over **every**
frame of the trial. -/
noncomputable def epsilon_markers_all_frames (k : KCC) (qOut : ℕ → List ℝ) : ℝ :=
  ((List.range k.nbFramesIkStep).map (fun f => frame_epsilon k (qOut f) f)).sum

/-- The ε value returned by `step_2` (0 if the run raised). -/
noncomputable def step2_eps (k : KCC) (solver : String) : ℝ :=
  match step_2 k solver with
  | .ok r => r.2
  | .error _ => 0

/-- The `q_output` returned by `step_2` (empty columns if the run raised). -/
noncomputable def step2_q (k : KCC) (solver : String) : ℕ → List ℝ :=
  match step_2 k solver with
  | .ok r => r.1
  | .error _ => fun _ => []

/-- Concrete two-frame calibration instance: one open-loop marker (model
position fixed at the origin) and two table markers with large constant
error; the experimental open-loop marker is off by 1 in frame 0 and
matched exactly in frame 1. -/
noncomputable def kccA : KCC where
  markersModel := ["M0", "TableA", "TableB"]
  closedLoopMarkers := ["TableA", "TableB"]
  trackedMarkers := ["M0", "TableA", "TableB"]
  qParameterIndex := []
  qKinematicIndex := [0]
  nbQ := 1
  nbQrows := 1
  weightsParam := [1, 1, 1, 1, 1]
  weightsIk := [1, 1, 1, 1, 1]
  markersAt := fun _ => [[0, 0, 0], [9, 9, 9], [9, 9, 9]]
  rotAt := fun _ => [[1, 0, 0], [0, 1, 0], [0, 0, 1]]
  jacTable := fun _ => []
  jacModel := fun _ => []
  jacRot := fun _ => []
  jacCont := fun _ => []
  jacPivot := fun _ => []
  nbFramesIkStep := 2
  qIkInitialGuess0 := [0]
  qOutput0 := fun _ => [0]
  xp := fun f => if f = 0 then [[1, 0, 0], [0, 0, 0], [0, 0, 0]]
                 else [[0, 0, 0], [0, 0, 0], [0, 0, 0]]
  solveLS := fun _ _ => [0]
  solveIp := fun _ _ => [0]
  ipSuccess := fun _ => true
  listFramesParamStep := [0]

theorem kccA_tab : (tableIdxEnum kccA.markersModel).getD 0 0 = 1 := by decide

theorem kccA_eps0 : frame_epsilon kccA [0] 0 = 1 := by
  rw [frame_epsilon, kccA_tab]
  rw [show List.range 1 = [0] from rfl]
  simp only [List.map_cons, List.map_nil, List.sum_cons, List.sum_nil]
  show sqDist [(0 : ℝ), 0, 0] [1, 0, 0] + 0 = 1
  rw [sqDist]
  norm_num

theorem kccA_eps1 : frame_epsilon kccA [0] 1 = 0 := by
  rw [frame_epsilon, kccA_tab]
  rw [show List.range 1 = [0] from rfl]
  simp only [List.map_cons, List.map_nil, List.sum_cons, List.sum_nil]
  show sqDist [(0 : ℝ), 0, 0] [0, 0, 0] + 0 = 0
  rw [sqDist_self]
  norm_num

theorem kccA_col0 : step2LsCol kccA 0 = [0] := rfl

theorem kccA_col1 : step2LsCol kccA 1 = [0] := rfl

theorem kccA_run : ∃ qO, step_2 kccA "leastsquare" = .ok (qO, 0) ∧
    qO 0 = [0] ∧ qO 1 = [0] := by
  obtain ⟨qO, hrun, hcols⟩ := step2Go_ls_inv kccA 2 0 kccA.qOutput0 0
    (by omega) (by intro g hg; omega) (fun g _ => rfl)
  refine ⟨qO, ?_, ?_, ?_⟩
  · have h1 : (0 + 2 - 1 : ℕ) = 1 := by omega
    rw [h1] at hrun
    rw [kccA_col1, kccA_eps1] at hrun
    exact hrun
  · rw [hcols 0 (by omega), kccA_col0]
  · rw [hcols 1 (by omega), kccA_col1]

/-- Counterexample to C1: `espilon_markers` is reset to 0 inside the
frame loop of `step_2` (line 790), so the returned ε is the **last**
frame's residual, not the sum over every frame: on `kccA` the code
returns ε = 0 although the per-frame open-loop errors sum to 1. -/
theorem claim_C1_counterexample :
    step2_eps kccA "leastsquare" = 0 ∧
    epsilon_markers_all_frames kccA (step2_q kccA "leastsquare") = 1 ∧
    ¬ (step2_eps kccA "leastsquare" =
       epsilon_markers_all_frames kccA (step2_q kccA "leastsquare")) := by
  obtain ⟨qO, hrun, h0, h1⟩ := kccA_run
  have heps : step2_eps kccA "leastsquare" = 0 := by
    rw [step2_eps, hrun]
  have hq : step2_q kccA "leastsquare" = qO := by
    rw [step2_q, hrun]
  have hall : epsilon_markers_all_frames kccA qO = 1 := by
    rw [epsilon_markers_all_frames]
    rw [show kccA.nbFramesIkStep = 2 from rfl]
    rw [show List.range 2 = [0, 1] from rfl]
    simp only [List.map_cons, List.map_nil, List.sum_cons, List.sum_nil]
    rw [h0, h1, kccA_eps0, kccA_eps1]
    norm_num
  refine ⟨heps, ?_, ?_⟩
  · rw [hq, hall]
  · rw [heps, hq, hall]
    norm_num

/-- Claim C1 amended: for the least-squares backend, the ε returned by
`step_2` equals the **final frame's** residual over the markers preceding
the first table marker (the open-loop markers, with the table markers
last): earlier frames contribute nothing; in particular if every open-loop
marker of the final frame is matched exactly, ε = 0 regardless of the
table markers' error at any frame. -/
theorem claim_C1_amended (k : KCC) (h1 : 1 ≤ k.nbFramesIkStep) :
    ∃ qO, step_2 k "leastsquare" =
        .ok (qO, frame_epsilon k (qO (k.nbFramesIkStep - 1)) (k.nbFramesIkStep - 1)) ∧
      ((∀ j, j < (tableIdxEnum k.markersModel).getD 0 0 →
          (k.markersAt (qO (k.nbFramesIkStep - 1))).getD j [] =
          (k.xp (k.nbFramesIkStep - 1)).getD j []) →
        frame_epsilon k (qO (k.nbFramesIkStep - 1)) (k.nbFramesIkStep - 1) = 0) := by
  obtain ⟨qO, hrun, hcols⟩ := step2Go_ls_inv k k.nbFramesIkStep 0 k.qOutput0 0 h1
    (by intro g hg; omega) (fun g _ => rfl)
  have harith : (0 + k.nbFramesIkStep - 1 : ℕ) = k.nbFramesIkStep - 1 := by omega
  rw [harith] at hrun
  have hlast : qO (k.nbFramesIkStep - 1) = step2LsCol k (k.nbFramesIkStep - 1) :=
    hcols (k.nbFramesIkStep - 1) (by omega)
  refine ⟨qO, ?_, ?_⟩
  · rw [hlast]
    exact hrun
  · intro hmatch
    rw [frame_epsilon]
    apply List.sum_eq_zero
    intro x hx
    obtain ⟨j, hj, hxx⟩ := List.mem_map.mp hx
    rw [← hxx, hmatch j (List.mem_range.mp hj), sqDist_self]

/-- Witness for the amended C1 at the concrete instance `kccA`. -/
theorem claim_C1_amended_witness :
    (1 ≤ kccA.nbFramesIkStep) ∧
    ∃ qO, step_2 kccA "leastsquare" =
        .ok (qO, frame_epsilon kccA (qO (kccA.nbFramesIkStep - 1)) (kccA.nbFramesIkStep - 1)) ∧
      ((∀ j, j < (tableIdxEnum kccA.markersModel).getD 0 0 →
          (kccA.markersAt (qO (kccA.nbFramesIkStep - 1))).getD j [] =
          (kccA.xp (kccA.nbFramesIkStep - 1)).getD j []) →
        frame_epsilon kccA (qO (kccA.nbFramesIkStep - 1)) (kccA.nbFramesIkStep - 1) = 0) :=
  ⟨by decide, claim_C1_amended kccA (by decide)⟩

/-- Claim C7: in `step_2`, the least-squares backend's result is accepted
unconditionally — the run never raises and is independent of any success
flags — while with the constrained (ipopt) backend the run raises exactly
when some frame's backend call reports non-success. -/
theorem claim_C7 (k : KCC) (h1 : 1 ≤ k.nbFramesIkStep) :
    (∀ b, step_2 { k with ipSuccess := b } "leastsquare" = step_2 k "leastsquare") ∧
    (∃ out, step_2 k "leastsquare" = .ok out) ∧
    ((∃ e, step_2 k "ipopt" = .error e) ↔
      ∃ f, f < k.nbFramesIkStep ∧ k.ipSuccess f = false) := by
  refine ⟨?_, ?_, ?_⟩
  · intro b
    exact step2Go_ls_ipsucc k b k.nbFramesIkStep 0 k.qOutput0 0
  · obtain ⟨qO, hrun, _⟩ := step2Go_ls_inv k k.nbFramesIkStep 0 k.qOutput0 0 h1
      (by intro g hg; omega) (fun g _ => rfl)
    exact ⟨_, hrun⟩
  · have hiff := step2Go_ip_error_iff k k.nbFramesIkStep 0 k.qOutput0 0
    constructor
    · intro h
      obtain ⟨j, _, hj2, hj3⟩ := hiff.mp h
      exact ⟨j, by omega, hj3⟩
    · rintro ⟨f, hf1, hf2⟩
      exact hiff.mpr ⟨f, by omega, by omega, hf2⟩

/-- Variant of `kccA` whose ipopt backend reports failure on every frame. -/
noncomputable def kccB : KCC :=
  { kccA with ipSuccess := fun _ => false }

/-- Witness for C7 at `kccB`: the ipopt run raises, the least-squares run
returns a result. -/
theorem claim_C7_witness :
    (1 ≤ kccB.nbFramesIkStep) ∧
    (∃ e, step_2 kccB "ipopt" = .error e) ∧
    (∃ out, step_2 kccB "leastsquare" = .ok out) :=
  ⟨by decide,
   (claim_C7 kccB (by decide)).2.2.mpr ⟨0, by decide, rfl⟩,
   (claim_C7 kccB (by decide)).2.1⟩

/-- Witness for C2: with `epsSeq ≡ 0` and threshold 1 the loop runs two
iterations and exits in a state whose delta is within the threshold. -/
theorem claim_C2_witness :
    solveLoopGo (fun _ => 0) 1 3 ⟨10, 0, 0⟩ = some ⟨0, 0, 2⟩ ∧
    |(0 : ℝ) - 0| ≤ 1 := by
  have h10 : |(10 : ℝ) - 0| > 1 := by
    rw [sub_zero, abs_of_nonneg (by norm_num : (0 : ℝ) ≤ 10)]
    norm_num
  have h010 : |(0 : ℝ) - 10| > 1 := by
    rw [zero_sub, abs_neg, abs_of_nonneg (by norm_num : (0 : ℝ) ≤ 10)]
    norm_num
  have h00 : ¬ (|(0 : ℝ) - 0| > 1) := by
    rw [sub_zero, abs_zero]
    norm_num
  have hev : solveLoopGo (fun _ => (0 : ℝ)) 1 3 ⟨10, 0, 0⟩ = some ⟨0, 0, 2⟩ := by
    rw [solveLoopGo]
    dsimp only
    rw [if_pos h10]
    rw [solveLoopGo]
    dsimp only
    rw [if_pos h010]
    rw [solveLoopGo]
    dsimp only
    rw [if_neg h00]
  exact ⟨hev, (claim_C2 (fun _ => 0) 1).1 3 ⟨10, 0, 0⟩ ⟨0, 0, 2⟩ hev⟩

/-! ### `objective_ik_list` (lines 599-673), `ik_jacobian` (lines 910-958)
and claim C4 -/

/-- `new_x` assembled at the top of `objective_ik_list` (lines 627-633):
when parameters are supplied, scatter `x` into the kinematic rows and `p`
into the parameter rows of a zero vector. -/
noncomputable def objective_new_x (k : KCC) (x : List ℝ) (p : Option (List ℝ)) :
    List ℝ :=
  match p with
  | some pv => setAt (setAt (List.replicate k.nbQ 0) k.qKinematicIndex x)
      k.qParameterIndex pv
  | none => x

/-- Elementwise residual of a penalty pair: model values minus targets. -/
noncomputable def res_block (pr : List ℝ × List ℝ) : List ℝ :=
  List.zipWith (fun a b => a - b) pr.1 pr.2

/-- `objective_ik_list` (lines 599-673): concatenate the five penalty
pairs in the order [closed-loop table, open-loop markers, continuity,
pivot, rotation], subtract targets from model values, and scale
elementwise by the per-element weight list of the active backend
(`weight_list_param` for "leastsquare", `weight_list_ik` for "ipopt").
Any other solver string falls through and the method returns `None`. -/
noncomputable def objective_ik_list (k : KCC) (ikSolver : String) (x : List ℝ)
    (p : Option (List ℝ)) (tableMarkers thoraxMarkers : List (List ℝ))
    (qInit : List ℝ) : Option (List ℝ) :=
  let newX := objective_new_x k x p
  let vect := (k.markersAt newX).flatten
  let tablePair := penalty_table_markers (tableMarkersIdxOf k.markersModel) vect tableMarkers
  let thoraxPair := penalty_open_loop_markers k.markersModel
    (tableMarkersIdxOf k.markersModel) vect thoraxMarkers
  let rotPair := penalty_rotation_matrix k.rotAt newX
  let contPair := penalty_q_open_loop x qInit
  let pivotPair := theta_pivot_penalty newX
  let diff := List.zipWith (fun a b => a - b)
    (tablePair.1 ++ thoraxPair.1 ++ contPair.1 ++ pivotPair.1 ++ rotPair.1)
    (tablePair.2 ++ thoraxPair.2 ++ contPair.2 ++ pivotPair.2 ++ rotPair.2)
  if ikSolver = "leastsquare" then
    some (List.zipWith (fun a b => a * b) diff
      (weight_list k.closedLoopMarkers k.trackedMarkers k.nbQrows
        k.qParameterIndex.length k.weightsParam))
  else if ikSolver = "ipopt" then
    some (List.zipWith (fun a b => a * b) diff
      (weight_list k.closedLoopMarkers k.trackedMarkers k.nbQrows
        k.qParameterIndex.length k.weightsIk))
  else none

/-- Scalar multiple of every entry of a matrix (numpy `M * w`). -/
def scaleRows (w : ℝ) (M : List (List ℝ)) : List (List ℝ) :=
  M.map (fun row => row.map (fun v => v * w))

/-- `ik_jacobian` (lines 910-958): vertical concatenation of the
analytical per-block jacobians in the order [table, open-loop model,
continuity, pivot, rotation], each scaled by `weights[0]`, `weights[1]`,
`weights[3]`, `weights[2]`, `weights[4]` respectively. -/
noncomputable def ik_jacobian (k : KCC) (x : List ℝ) (weights : List ℝ) :
    List (List ℝ) :=
  scaleRows (weights.getD 0 0) (k.jacTable x) ++
  scaleRows (weights.getD 1 0) (k.jacModel x) ++
  scaleRows (weights.getD 3 0) (k.jacCont x) ++
  scaleRows (weights.getD 2 0) (k.jacPivot x) ++
  scaleRows (weights.getD 4 0) (k.jacRot x)

theorem zipWith_mul_replicate (l : List ℝ) (w : ℝ) :
    List.zipWith (fun a b => a * b) l (List.replicate l.length w) =
      l.map (fun a => a * w) := by
  induction l with
  | nil => rfl
  | cons a as ih =>
    rw [List.length_cons, List.replicate_succ, List.zipWith_cons_cons,
      List.map_cons, ih]

theorem zip_mul_chunk (d tail ws : List ℝ) (w : ℝ) :
    List.zipWith (fun a b => a * b) (d ++ tail) (List.replicate d.length w ++ ws) =
      d.map (fun a => a * w) ++ List.zipWith (fun a b => a * b) tail ws := by
  rw [List.zipWith_append _ _ _ _ _ (by rw [List.length_replicate])]
  rw [zipWith_mul_replicate]

theorem zip_sub_chunk (a b tailA tailB : List ℝ) (h : a.length = b.length) :
    List.zipWith (fun x y => x - y) (a ++ tailA) (b ++ tailB) =
      List.zipWith (fun x y => x - y) a b ++
      List.zipWith (fun x y => x - y) tailA tailB :=
  List.zipWith_append _ _ _ _ _ h

theorem pivot_pair_len (q : List ℝ) :
    (theta_pivot_penalty q).1.length = 1 ∧ (theta_pivot_penalty q).2.length = 1 := by
  rw [theta_pivot_penalty]
  split_ifs <;> exact ⟨rfl, rfl⟩

/-- Claim C4: the residual handed to the IK solver is the concatenation of
the five penalty blocks in the fixed order [closed-loop table, open-loop
markers, continuity, pivot, rotation], each element scaled by its block's
configured weight (`weights[0]`, `weights[1]`, `weights[3]`, `weights[2]`,
`weights[4]` respectively, for either backend's weight vector); and
`ik_jacobian` is the vertical concatenation of the per-block analytical
jacobians in that same order, pre-multiplied by the same block weights. -/
theorem claim_C4 (k : KCC) (x : List ℝ) (p : Option (List ℝ))
    (tableMarkers thoraxMarkers : List (List ℝ)) (qInit : List ℝ) (w : List ℝ)
    (hcl : k.closedLoopMarkers.length = 2)
    (h5a : (penalty_table_markers (tableMarkersIdxOf k.markersModel)
        ((k.markersAt (objective_new_x k x p)).flatten) tableMarkers).1.length = 5)
    (h5b : (penalty_table_markers (tableMarkersIdxOf k.markersModel)
        ((k.markersAt (objective_new_x k x p)).flatten) tableMarkers).2.length = 5)
    (hoa : (penalty_open_loop_markers k.markersModel (tableMarkersIdxOf k.markersModel)
        ((k.markersAt (objective_new_x k x p)).flatten) thoraxMarkers).1.length =
        (k.trackedMarkers.filter (fun i => !(k.closedLoopMarkers.contains i))).length * 3)
    (hob : (penalty_open_loop_markers k.markersModel (tableMarkersIdxOf k.markersModel)
        ((k.markersAt (objective_new_x k x p)).flatten) thoraxMarkers).2.length =
        (penalty_open_loop_markers k.markersModel (tableMarkersIdxOf k.markersModel)
        ((k.markersAt (objective_new_x k x p)).flatten) thoraxMarkers).1.length)
    (hx : x.length = k.nbQrows - k.qParameterIndex.length) :
    objective_ik_list k "leastsquare" x p tableMarkers thoraxMarkers qInit =
      some ((res_block (penalty_table_markers (tableMarkersIdxOf k.markersModel)
          ((k.markersAt (objective_new_x k x p)).flatten) tableMarkers)).map
            (fun a => a * k.weightsParam.getD 0 0) ++
        (res_block (penalty_open_loop_markers k.markersModel (tableMarkersIdxOf k.markersModel)
          ((k.markersAt (objective_new_x k x p)).flatten) thoraxMarkers)).map
            (fun a => a * k.weightsParam.getD 1 0) ++
        (res_block (penalty_q_open_loop x qInit)).map
            (fun a => a * k.weightsParam.getD 3 0) ++
        (res_block (theta_pivot_penalty (objective_new_x k x p))).map
            (fun a => a * k.weightsParam.getD 2 0) ++
        (res_block (penalty_rotation_matrix k.rotAt (objective_new_x k x p))).map
            (fun a => a * k.weightsParam.getD 4 0)) ∧
    objective_ik_list k "ipopt" x p tableMarkers thoraxMarkers qInit =
      some ((res_block (penalty_table_markers (tableMarkersIdxOf k.markersModel)
          ((k.markersAt (objective_new_x k x p)).flatten) tableMarkers)).map
            (fun a => a * k.weightsIk.getD 0 0) ++
        (res_block (penalty_open_loop_markers k.markersModel (tableMarkersIdxOf k.markersModel)
          ((k.markersAt (objective_new_x k x p)).flatten) thoraxMarkers)).map
            (fun a => a * k.weightsIk.getD 1 0) ++
        (res_block (penalty_q_open_loop x qInit)).map
            (fun a => a * k.weightsIk.getD 3 0) ++
        (res_block (theta_pivot_penalty (objective_new_x k x p))).map
            (fun a => a * k.weightsIk.getD 2 0) ++
        (res_block (penalty_rotation_matrix k.rotAt (objective_new_x k x p))).map
            (fun a => a * k.weightsIk.getD 4 0)) ∧
    ik_jacobian k x w =
      scaleRows (w.getD 0 0) (k.jacTable x) ++
      scaleRows (w.getD 1 0) (k.jacModel x) ++
      scaleRows (w.getD 3 0) (k.jacCont x) ++
      scaleRows (w.getD 2 0) (k.jacPivot x) ++
      scaleRows (w.getD 4 0) (k.jacRot x) := by
  have hD1 : (res_block (penalty_table_markers (tableMarkersIdxOf k.markersModel)
      ((k.markersAt (objective_new_x k x p)).flatten) tableMarkers)).length = 5 := by
    rw [res_block, List.length_zipWith, h5a, h5b]
    omega
  have hD2 : (res_block (penalty_open_loop_markers k.markersModel
      (tableMarkersIdxOf k.markersModel)
      ((k.markersAt (objective_new_x k x p)).flatten) thoraxMarkers)).length =
      (k.trackedMarkers.filter (fun i => !(k.closedLoopMarkers.contains i))).length * 3 := by
    rw [res_block, List.length_zipWith, hob, min_self, hoa]
  have hD3 : (res_block (penalty_q_open_loop x qInit)).length = x.length := by
    rw [res_block, List.length_zipWith]
    simp [penalty_q_open_loop]
  have hD4 : (res_block (theta_pivot_penalty (objective_new_x k x p))).length = 1 := by
    rw [res_block, List.length_zipWith, (pivot_pair_len _).1, (pivot_pair_len _).2]
    omega
  have hD5 : (res_block (penalty_rotation_matrix k.rotAt (objective_new_x k x p))).length = 5 :=
    rfl
  have hsub : List.zipWith (fun a b => a - b)
      ((penalty_table_markers (tableMarkersIdxOf k.markersModel)
          ((k.markersAt (objective_new_x k x p)).flatten) tableMarkers).1 ++
        (penalty_open_loop_markers k.markersModel (tableMarkersIdxOf k.markersModel)
          ((k.markersAt (objective_new_x k x p)).flatten) thoraxMarkers).1 ++
        (penalty_q_open_loop x qInit).1 ++
        (theta_pivot_penalty (objective_new_x k x p)).1 ++
        (penalty_rotation_matrix k.rotAt (objective_new_x k x p)).1)
      ((penalty_table_markers (tableMarkersIdxOf k.markersModel)
          ((k.markersAt (objective_new_x k x p)).flatten) tableMarkers).2 ++
        (penalty_open_loop_markers k.markersModel (tableMarkersIdxOf k.markersModel)
          ((k.markersAt (objective_new_x k x p)).flatten) thoraxMarkers).2 ++
        (penalty_q_open_loop x qInit).2 ++
        (theta_pivot_penalty (objective_new_x k x p)).2 ++
        (penalty_rotation_matrix k.rotAt (objective_new_x k x p)).2) =
      res_block (penalty_table_markers (tableMarkersIdxOf k.markersModel)
          ((k.markersAt (objective_new_x k x p)).flatten) tableMarkers) ++
        res_block (penalty_open_loop_markers k.markersModel (tableMarkersIdxOf k.markersModel)
          ((k.markersAt (objective_new_x k x p)).flatten) thoraxMarkers) ++
        res_block (penalty_q_open_loop x qInit) ++
        res_block (theta_pivot_penalty (objective_new_x k x p)) ++
        res_block (penalty_rotation_matrix k.rotAt (objective_new_x k x p)) := by
    simp only [List.append_assoc]
    rw [zip_sub_chunk _ _ _ _ (h5a.trans h5b.symm)]
    rw [zip_sub_chunk _ _ _ _ hob.symm]
    rw [zip_sub_chunk _ _ _ _
      (show (penalty_q_open_loop x qInit).1.length =
          (penalty_q_open_loop x qInit).2.length from by simp [penalty_q_open_loop])]
    rw [zip_sub_chunk _ _ _ _
      (show (theta_pivot_penalty (objective_new_x k x p)).1.length =
          (theta_pivot_penalty (objective_new_x k x p)).2.length from by
        rw [(pivot_pair_len _).1, (pivot_pair_len _).2])]
    rfl
  have hwt : ∀ ws : List ℝ,
      List.zipWith (fun a b => a * b)
        (res_block (penalty_table_markers (tableMarkersIdxOf k.markersModel)
            ((k.markersAt (objective_new_x k x p)).flatten) tableMarkers) ++
          res_block (penalty_open_loop_markers k.markersModel (tableMarkersIdxOf k.markersModel)
            ((k.markersAt (objective_new_x k x p)).flatten) thoraxMarkers) ++
          res_block (penalty_q_open_loop x qInit) ++
          res_block (theta_pivot_penalty (objective_new_x k x p)) ++
          res_block (penalty_rotation_matrix k.rotAt (objective_new_x k x p)))
        (weight_list k.closedLoopMarkers k.trackedMarkers k.nbQrows
          k.qParameterIndex.length ws) =
      (res_block (penalty_table_markers (tableMarkersIdxOf k.markersModel)
          ((k.markersAt (objective_new_x k x p)).flatten) tableMarkers)).map
            (fun a => a * ws.getD 0 0) ++
        (res_block (penalty_open_loop_markers k.markersModel (tableMarkersIdxOf k.markersModel)
          ((k.markersAt (objective_new_x k x p)).flatten) thoraxMarkers)).map
            (fun a => a * ws.getD 1 0) ++
        (res_block (penalty_q_open_loop x qInit)).map (fun a => a * ws.getD 3 0) ++
        (res_block (theta_pivot_penalty (objective_new_x k x p))).map
            (fun a => a * ws.getD 2 0) ++
        (res_block (penalty_rotation_matrix k.rotAt (objective_new_x k x p))).map
            (fun a => a * ws.getD 4 0) := by
    intro ws
    rw [weight_list]
    simp only [List.append_assoc]
    rw [show k.closedLoopMarkers.length * 3 - 1 =
        (res_block (penalty_table_markers (tableMarkersIdxOf k.markersModel)
          ((k.markersAt (objective_new_x k x p)).flatten) tableMarkers)).length from by
      rw [hD1, hcl]]
    rw [zip_mul_chunk]
    rw [show (k.trackedMarkers.filter (fun i => !(k.closedLoopMarkers.contains i))).length * 3 =
        (res_block (penalty_open_loop_markers k.markersModel (tableMarkersIdxOf k.markersModel)
          ((k.markersAt (objective_new_x k x p)).flatten) thoraxMarkers)).length from
      hD2.symm]
    rw [zip_mul_chunk]
    rw [show k.nbQrows - k.qParameterIndex.length =
        (res_block (penalty_q_open_loop x qInit)).length from by rw [hD3, hx]]
    rw [zip_mul_chunk]
    rw [show ([ws.getD 2 0] : List ℝ) =
        List.replicate (res_block (theta_pivot_penalty (objective_new_x k x p))).length
          (ws.getD 2 0) from by rw [hD4, List.replicate_one]]
    rw [zip_mul_chunk]
    rw [show (5 : ℕ) =
        (res_block (penalty_rotation_matrix k.rotAt (objective_new_x k x p))).length from
      hD5.symm]
    rw [zipWith_mul_replicate]
  refine ⟨?_, ?_, rfl⟩
  · have hls : objective_ik_list k "leastsquare" x p tableMarkers thoraxMarkers qInit =
        some (List.zipWith (fun a b => a * b)
          (List.zipWith (fun a b => a - b)
            ((penalty_table_markers (tableMarkersIdxOf k.markersModel)
                ((k.markersAt (objective_new_x k x p)).flatten) tableMarkers).1 ++
              (penalty_open_loop_markers k.markersModel (tableMarkersIdxOf k.markersModel)
                ((k.markersAt (objective_new_x k x p)).flatten) thoraxMarkers).1 ++
              (penalty_q_open_loop x qInit).1 ++
              (theta_pivot_penalty (objective_new_x k x p)).1 ++
              (penalty_rotation_matrix k.rotAt (objective_new_x k x p)).1)
            ((penalty_table_markers (tableMarkersIdxOf k.markersModel)
                ((k.markersAt (objective_new_x k x p)).flatten) tableMarkers).2 ++
              (penalty_open_loop_markers k.markersModel (tableMarkersIdxOf k.markersModel)
                ((k.markersAt (objective_new_x k x p)).flatten) thoraxMarkers).2 ++
              (penalty_q_open_loop x qInit).2 ++
              (theta_pivot_penalty (objective_new_x k x p)).2 ++
              (penalty_rotation_matrix k.rotAt (objective_new_x k x p)).2))
          (weight_list k.closedLoopMarkers k.trackedMarkers k.nbQrows
            k.qParameterIndex.length k.weightsParam)) := rfl
    rw [hls, hsub, hwt k.weightsParam]
  · have hip : objective_ik_list k "ipopt" x p tableMarkers thoraxMarkers qInit =
        some (List.zipWith (fun a b => a * b)
          (List.zipWith (fun a b => a - b)
            ((penalty_table_markers (tableMarkersIdxOf k.markersModel)
                ((k.markersAt (objective_new_x k x p)).flatten) tableMarkers).1 ++
              (penalty_open_loop_markers k.markersModel (tableMarkersIdxOf k.markersModel)
                ((k.markersAt (objective_new_x k x p)).flatten) thoraxMarkers).1 ++
              (penalty_q_open_loop x qInit).1 ++
              (theta_pivot_penalty (objective_new_x k x p)).1 ++
              (penalty_rotation_matrix k.rotAt (objective_new_x k x p)).1)
            ((penalty_table_markers (tableMarkersIdxOf k.markersModel)
                ((k.markersAt (objective_new_x k x p)).flatten) tableMarkers).2 ++
              (penalty_open_loop_markers k.markersModel (tableMarkersIdxOf k.markersModel)
                ((k.markersAt (objective_new_x k x p)).flatten) thoraxMarkers).2 ++
              (penalty_q_open_loop x qInit).2 ++
              (theta_pivot_penalty (objective_new_x k x p)).2 ++
              (penalty_rotation_matrix k.rotAt (objective_new_x k x p)).2))
          (weight_list k.closedLoopMarkers k.trackedMarkers k.nbQrows
            k.qParameterIndex.length k.weightsIk)) := rfl
    rw [hip, hsub, hwt k.weightsIk]

/-- Concrete calibration instance for exercising `objective_ik_list` and
`ik_jacobian`: three markers (one open-loop, two table), three dofs (two
kinematic, one parameter). -/
noncomputable def kccC : KCC where
  markersModel := ["M0", "TableA", "TableB"]
  closedLoopMarkers := ["TableA", "TableB"]
  trackedMarkers := ["M0", "TableA", "TableB"]
  qParameterIndex := [2]
  qKinematicIndex := [0, 1]
  nbQ := 3
  nbQrows := 3
  weightsParam := [1, 2, 3, 4, 5]
  weightsIk := [2, 3, 4, 5, 6]
  markersAt := fun _ => [[1, 2, 3], [4, 5, 6], [7, 8, 9]]
  rotAt := fun _ => [[1, 0, 0], [0, 1, 0], [0, 0, 1]]
  jacTable := fun _ => [[1, 0], [0, 1]]
  jacModel := fun _ => [[2, 0], [0, 2]]
  jacRot := fun _ => [[3, 0]]
  jacCont := fun _ => [[4, 0], [0, 4]]
  jacPivot := fun _ => [[5, 5]]
  nbFramesIkStep := 1
  qIkInitialGuess0 := [0, 0, 0]
  qOutput0 := fun _ => [0, 0, 0]
  xp := fun _ => [[0, 0, 0], [0, 0, 0], [0, 0, 0]]
  solveLS := fun _ _ => [0, 0]
  solveIp := fun _ _ => [0, 0]
  ipSuccess := fun _ => true
  listFramesParamStep := [0]

noncomputable def xC : List ℝ := [0, 0]

noncomputable def pC : Option (List ℝ) := some [0]

noncomputable def tmC : List (List ℝ) := [[0, 0, 0], [0, 0, 0]]

noncomputable def thmC : List (List ℝ) := [[0, 0, 0]]

noncomputable def qiC : List ℝ := [0, 0]

noncomputable def wC : List ℝ := [1, 1, 1, 1, 1]

noncomputable def nxC : List ℝ := objective_new_x kccC xC pC

noncomputable def vC : List ℝ := (kccC.markersAt nxC).flatten

noncomputable def tpC : List ℝ × List ℝ :=
  penalty_table_markers (tableMarkersIdxOf kccC.markersModel) vC tmC

noncomputable def opC : List ℝ × List ℝ :=
  penalty_open_loop_markers kccC.markersModel (tableMarkersIdxOf kccC.markersModel) vC thmC

/-- Witness for C4 at the concrete instance `kccC`. -/
theorem claim_C4_witness :
    (kccC.closedLoopMarkers.length = 2 ∧
     tpC.1.length = 5 ∧ tpC.2.length = 5 ∧
     opC.1.length =
       (kccC.trackedMarkers.filter (fun i => !(kccC.closedLoopMarkers.contains i))).length * 3 ∧
     opC.2.length = opC.1.length ∧
     xC.length = kccC.nbQrows - kccC.qParameterIndex.length) ∧
    (objective_ik_list kccC "leastsquare" xC pC tmC thmC qiC =
      some ((res_block tpC).map (fun a => a * kccC.weightsParam.getD 0 0) ++
        (res_block opC).map (fun a => a * kccC.weightsParam.getD 1 0) ++
        (res_block (penalty_q_open_loop xC qiC)).map (fun a => a * kccC.weightsParam.getD 3 0) ++
        (res_block (theta_pivot_penalty nxC)).map (fun a => a * kccC.weightsParam.getD 2 0) ++
        (res_block (penalty_rotation_matrix kccC.rotAt nxC)).map
          (fun a => a * kccC.weightsParam.getD 4 0)) ∧
    objective_ik_list kccC "ipopt" xC pC tmC thmC qiC =
      some ((res_block tpC).map (fun a => a * kccC.weightsIk.getD 0 0) ++
        (res_block opC).map (fun a => a * kccC.weightsIk.getD 1 0) ++
        (res_block (penalty_q_open_loop xC qiC)).map (fun a => a * kccC.weightsIk.getD 3 0) ++
        (res_block (theta_pivot_penalty nxC)).map (fun a => a * kccC.weightsIk.getD 2 0) ++
        (res_block (penalty_rotation_matrix kccC.rotAt nxC)).map
          (fun a => a * kccC.weightsIk.getD 4 0)) ∧
    ik_jacobian kccC xC wC =
      scaleRows (wC.getD 0 0) (kccC.jacTable xC) ++
      scaleRows (wC.getD 1 0) (kccC.jacModel xC) ++
      scaleRows (wC.getD 3 0) (kccC.jacCont xC) ++
      scaleRows (wC.getD 2 0) (kccC.jacPivot xC) ++
      scaleRows (wC.getD 4 0) (kccC.jacRot xC)) :=
  ⟨⟨rfl, rfl, rfl, rfl, rfl, rfl⟩,
   claim_C4 kccC xC pC tmC thmC qiC wC rfl rfl rfl rfl rfl rfl⟩

/-! ### `objective_function_param` (lines 511-597) and claim C3 -/

/-- The pose `Q` assembled for sampled frame `f` inside
`objective_function_param` (lines 539-547): parameter rows carry `p0`,
kinematic rows the frame's current IK estimate `x[:, f]`. -/
noncomputable def ofpQ (k : KCC) (p0 : List ℝ) (x : ℕ → List ℝ) (f : ℕ) : List ℝ :=
  setAt (setAt (List.replicate k.nbQrows 0) k.qParameterIndex p0)
    k.qKinematicIndex (gather (x f) k.qKinematicIndex)

/-- Flattened model marker positions at the frame pose (lines 549-554). -/
noncomputable def ofpVect (k : KCC) (p0 : List ℝ) (x : ℕ → List ℝ) (f : ℕ) : List ℝ :=
  (k.markersAt (ofpQ k p0 x f)).flatten

/-- `markers_calibration[:, index_wu_markers[0] : index_wu_markers[-1] + 1, f]`
(line 544): the calibration marker columns between the first and last
non-table marker index. -/
noncomputable def ofpThorax (k : KCC) (mcal : ℕ → List (List ℝ)) (f : ℕ) :
    List (List ℝ) :=
  ((mcal f).drop ((wuIdxEnum k.markersModel).getD 0 0)).take
    ((wuIdxEnum k.markersModel).getD ((wuIdxEnum k.markersModel).length - 1) 0 + 1 -
      (wuIdxEnum k.markersModel).getD 0 0)

/-- `markers_calibration[:, index_wu_markers[-1] + 1:, f]` (line 545). -/
noncomputable def ofpTable (k : KCC) (mcal : ℕ → List (List ℝ)) (f : ℕ) :
    List (List ℝ) :=
  (mcal f).drop
    ((wuIdxEnum k.markersModel).getD ((wuIdxEnum k.markersModel).length - 1) 0 + 1)

/-- Squared norm of the first table marker's residual for frame `f`
(lines 556-559). -/
noncomputable def ofp_t5 (k : KCC) (p0 : List ℝ) (x : ℕ → List ℝ)
    (mcal : ℕ → List (List ℝ)) (f : ℕ) : ℝ :=
  sqDist ((penalty_table_markers (tableMarkersIdxOf k.markersModel)
      (ofpVect k p0 x f) (ofpTable k mcal f)).1.take 3)
    ((penalty_table_markers (tableMarkersIdxOf k.markersModel)
      (ofpVect k p0 x f) (ofpTable k mcal f)).2.take 3)

/-- Squared norm of the second table marker's X/Y residual (lines 561-562). -/
noncomputable def ofp_t6 (k : KCC) (p0 : List ℝ) (x : ℕ → List ℝ)
    (mcal : ℕ → List (List ℝ)) (f : ℕ) : ℝ :=
  sqDist ((penalty_table_markers (tableMarkersIdxOf k.markersModel)
      (ofpVect k p0 x f) (ofpTable k mcal f)).1.drop 3)
    ((penalty_table_markers (tableMarkersIdxOf k.markersModel)
      (ofpVect k p0 x f) (ofpTable k mcal f)).2.drop 3)

/-- Open-loop marker term for frame `f` (lines 564-570).  Note the source
slides a width-3 window at offsets `j = 0 .. n_thorax_columns - 1` over
the flattened lists (`thorax_list_model[j : j + 3]`), rather than stepping
by 3; the embedding reproduces that. -/
noncomputable def ofp_mark (k : KCC) (p0 : List ℝ) (x : ℕ → List ℝ)
    (mcal : ℕ → List (List ℝ)) (f : ℕ) : ℝ :=
  ((List.range (ofpThorax k mcal f).length).map (fun j =>
    sqDist (((penalty_open_loop_markers k.markersModel (tableMarkersIdxOf k.markersModel)
        (ofpVect k p0 x f) (ofpThorax k mcal f)).1.drop j).take 3)
      (((penalty_open_loop_markers k.markersModel (tableMarkersIdxOf k.markersModel)
        (ofpVect k p0 x f) (ofpThorax k mcal f)).2.drop j).take 3))).sum

/-- Rotation-horizontality term for frame `f` (lines 572-579). -/
noncomputable def ofp_rot (k : KCC) (p0 : List ℝ) (x : ℕ → List ℝ) (f : ℕ) : ℝ :=
  ((penalty_rotation_matrix k.rotAt (ofpQ k p0 x f)).1.map (fun i => i ^ 2)).sum

/-- Pivot term for frame `f` (lines 585-586). -/
noncomputable def ofp_pivot (k : KCC) (p0 : List ℝ) (x : ℕ → List ℝ) (f : ℕ) : ℝ :=
  ((theta_pivot_penalty (ofpQ k p0 x f)).1.getD 0 0 -
   (theta_pivot_penalty (ofpQ k p0 x f)).2.getD 0 0) ^ 2

/-- `np.sum((Q - target) ** 2)` over all dofs (lines 581-583). -/
noncomputable def contVal (Q v : List ℝ) : ℝ :=
  ((List.range Q.length).map (fun i => (Q.getD i 0 - v.getD i 0) ^ 2)).sum

/-- Loop state of `objective_function_param`: the four accumulators that
sum over frames, the pivot and continuity values (overwritten each
iteration, lines 583-586), and the value the name `x0` is bound to.
`x0cur = some v` means `x0` is still the caller-supplied array with value
`v`; `x0cur = none` models the situation after the `x0 = Q` assignment
(line 588): `x0` then aliases the mutable array `Q` itself, so when the
next iteration's `penalty_q_open_loop(Q, x0)` reads it — after `Q` has
been overwritten in place — it compares `Q` against itself. -/
structure OfpState where
  t5All : ℝ
  t6All : ℝ
  markAll : ℝ
  rotAll : ℝ
  pivot : ℝ
  qCont : ℝ
  x0cur : Option (List ℝ)

/-- One iteration of the frame loop of `objective_function_param`
(lines 543-588). -/
noncomputable def ofpStep (k : KCC) (p0 : List ℝ) (x : ℕ → List ℝ)
    (mcal : ℕ → List (List ℝ)) (s : OfpState) (f : ℕ) : OfpState :=
  { t5All := s.t5All + ofp_t5 k p0 x mcal f
    t6All := s.t6All + ofp_t6 k p0 x mcal f
    markAll := s.markAll + ofp_mark k p0 x mcal f
    rotAll := s.rotAll + ofp_rot k p0 x f
    pivot := ofp_pivot k p0 x f
    qCont := match s.x0cur with
      | some v => contVal (ofpQ k p0 x f) v
      | none => contVal (ofpQ k p0 x f) (ofpQ k p0 x f)
    x0cur := none }

/-- The loop of `objective_function_param` run over the sampled frame
subset (the body only uses the enumeration position `f`, lines 543-588). -/
noncomputable def ofpFold (k : KCC) (p0 : List ℝ) (x : ℕ → List ℝ) (x0 : List ℝ)
    (mcal : ℕ → List (List ℝ)) : OfpState :=
  (List.range k.listFramesParamStep.length).foldl (ofpStep k p0 x mcal)
    ⟨0, 0, 0, 0, 0, 0, some x0⟩

/-- `objective_function_param` (lines 511-597): the returned scalar
combines the accumulated table, marker and rotation sums with the values
`pivot` and `q_continuity` left over from the **last** loop iteration. -/
noncomputable def objective_function_param (k : KCC) (p0 : List ℝ) (x : ℕ → List ℝ)
    (x0 : List ℝ) (mcal : ℕ → List (List ℝ)) (weight : List ℝ) : ℝ :=
  weight.getD 0 0 * ((ofpFold k p0 x x0 mcal).t5All + (ofpFold k p0 x x0 mcal).t6All) +
  weight.getD 1 0 * (ofpFold k p0 x x0 mcal).markAll +
  weight.getD 2 0 * (ofpFold k p0 x x0 mcal).pivot +
  weight.getD 3 0 * (ofpFold k p0 x x0 mcal).qCont +
  weight.getD 4 0 * (ofpFold k p0 x x0 mcal).rotAll

/-- The objective claim C3 describes (stated for comparison, not part of
the source): every sampled frame contributes all five weighted penalty
blocks, with the continuity term of frame `f` taken against the previous
sampled frame's pose (the supplied initial pose for the first frame). -/
noncomputable def objective_function_param_spec (k : KCC) (p0 : List ℝ)
    (x : ℕ → List ℝ) (x0 : List ℝ) (mcal : ℕ → List (List ℝ))
    (weight : List ℝ) : ℝ :=
  ((List.range k.listFramesParamStep.length).map (fun f =>
    weight.getD 0 0 * (ofp_t5 k p0 x mcal f + ofp_t6 k p0 x mcal f) +
    weight.getD 1 0 * ofp_mark k p0 x mcal f +
    weight.getD 2 0 * ofp_pivot k p0 x f +
    weight.getD 3 0 * contVal (ofpQ k p0 x f)
      (if f = 0 then x0 else ofpQ k p0 x (f - 1)) +
    weight.getD 4 0 * ofp_rot k p0 x f)).sum

theorem contVal_self (Q : List ℝ) : contVal Q Q = 0 := by
  rw [contVal]
  apply List.sum_eq_zero
  intro a ha
  obtain ⟨i, _, hval⟩ := List.mem_map.mp ha
  rw [← hval, sub_self]
  ring

/-- Field-by-field characterization of the `objective_function_param`
loop: the table, marker and rotation terms accumulate over all sampled
frames, while pivot and continuity retain only the last iteration's
values — and from the second iteration on, the continuity target aliases
the current pose, making the term 0. -/
theorem ofpFold_fields (k : KCC) (p0 : List ℝ) (x : ℕ → List ℝ) (x0 : List ℝ)
    (mcal : ℕ → List (List ℝ)) : ∀ n, 1 ≤ n →
    ((List.range n).foldl (ofpStep k p0 x mcal) ⟨0, 0, 0, 0, 0, 0, some x0⟩).t5All =
      ((List.range n).map (fun f => ofp_t5 k p0 x mcal f)).sum ∧
    ((List.range n).foldl (ofpStep k p0 x mcal) ⟨0, 0, 0, 0, 0, 0, some x0⟩).t6All =
      ((List.range n).map (fun f => ofp_t6 k p0 x mcal f)).sum ∧
    ((List.range n).foldl (ofpStep k p0 x mcal) ⟨0, 0, 0, 0, 0, 0, some x0⟩).markAll =
      ((List.range n).map (fun f => ofp_mark k p0 x mcal f)).sum ∧
    ((List.range n).foldl (ofpStep k p0 x mcal) ⟨0, 0, 0, 0, 0, 0, some x0⟩).rotAll =
      ((List.range n).map (fun f => ofp_rot k p0 x f)).sum ∧
    ((List.range n).foldl (ofpStep k p0 x mcal) ⟨0, 0, 0, 0, 0, 0, some x0⟩).pivot =
      ofp_pivot k p0 x (n - 1) ∧
    ((List.range n).foldl (ofpStep k p0 x mcal) ⟨0, 0, 0, 0, 0, 0, some x0⟩).qCont =
      (if n = 1 then contVal (ofpQ k p0 x 0) x0 else 0) ∧
    ((List.range n).foldl (ofpStep k p0 x mcal) ⟨0, 0, 0, 0, 0, 0, some x0⟩).x0cur =
      none := by
  intro n
  induction n with
  | zero => intro h; omega
  | succ m ih =>
    intro _
    cases m with
    | zero =>
      rw [show List.range 1 = [0] from rfl]
      rw [List.foldl_cons, List.foldl_nil]
      refine ⟨?_, ?_, ?_, ?_, ?_, ?_, rfl⟩ <;>
        simp [ofpStep]
    | succ l =>
      obtain ⟨ih1, ih2, ih3, ih4, ih5, ih6, ih7⟩ := ih (by omega)
      rw [List.range_succ, List.foldl_append, List.foldl_cons, List.foldl_nil]
      refine ⟨?_, ?_, ?_, ?_, ?_, ?_, rfl⟩
      · rw [show ∀ s f, (ofpStep k p0 x mcal s f).t5All = s.t5All + ofp_t5 k p0 x mcal f
            from fun s f => rfl]
        rw [ih1]
        simp only [List.range_succ, List.map_append, List.sum_append, List.map_cons,
          List.map_nil, List.sum_cons, List.sum_nil]
        ring
      · rw [show ∀ s f, (ofpStep k p0 x mcal s f).t6All = s.t6All + ofp_t6 k p0 x mcal f
            from fun s f => rfl]
        rw [ih2]
        simp only [List.range_succ, List.map_append, List.sum_append, List.map_cons,
          List.map_nil, List.sum_cons, List.sum_nil]
        ring
      · rw [show ∀ s f, (ofpStep k p0 x mcal s f).markAll = s.markAll + ofp_mark k p0 x mcal f
            from fun s f => rfl]
        rw [ih3]
        simp only [List.range_succ, List.map_append, List.sum_append, List.map_cons,
          List.map_nil, List.sum_cons, List.sum_nil]
        ring
      · rw [show ∀ s f, (ofpStep k p0 x mcal s f).rotAll = s.rotAll + ofp_rot k p0 x f
            from fun s f => rfl]
        rw [ih4]
        simp only [List.range_succ, List.map_append, List.sum_append, List.map_cons,
          List.map_nil, List.sum_cons, List.sum_nil]
        ring
      · rw [show ∀ s f, (ofpStep k p0 x mcal s f).pivot = ofp_pivot k p0 x f
            from fun s f => rfl]
        norm_num
      · rw [show ∀ s f, (ofpStep k p0 x mcal s f).qCont =
            (match s.x0cur with
             | some v => contVal (ofpQ k p0 x f) v
             | none => contVal (ofpQ k p0 x f) (ofpQ k p0 x f))
            from fun s f => rfl]
        rw [ih7]
        rw [contVal_self]
        rw [if_neg (by omega)]

/-- Claim C3 amended: the parameter-identification objective accumulates
only the closed-loop table, open-loop marker and rotation blocks over the
sampled frames; the pivot contribution is the **last** sampled frame's
only, and the continuity contribution is the last frame's as well — which
is the supplied initial pose's residual when exactly one frame is sampled
and 0 otherwise, because from the second iteration on the target aliases
the current pose (`x0 = Q` binds `x0` to the array `Q` that is mutated in
place). -/
theorem claim_C3_amended (k : KCC) (p0 : List ℝ) (x : ℕ → List ℝ) (x0 : List ℝ)
    (mcal : ℕ → List (List ℝ)) (weight : List ℝ)
    (h1 : 1 ≤ k.listFramesParamStep.length) :
    objective_function_param k p0 x x0 mcal weight =
      weight.getD 0 0 * (((List.range k.listFramesParamStep.length).map
          (fun f => ofp_t5 k p0 x mcal f)).sum +
        ((List.range k.listFramesParamStep.length).map
          (fun f => ofp_t6 k p0 x mcal f)).sum) +
      weight.getD 1 0 * ((List.range k.listFramesParamStep.length).map
          (fun f => ofp_mark k p0 x mcal f)).sum +
      weight.getD 2 0 * ofp_pivot k p0 x (k.listFramesParamStep.length - 1) +
      weight.getD 3 0 * (if k.listFramesParamStep.length = 1
          then contVal (ofpQ k p0 x 0) x0 else 0) +
      weight.getD 4 0 * ((List.range k.listFramesParamStep.length).map
          (fun f => ofp_rot k p0 x f)).sum := by
  obtain ⟨h5, h6, hm, hr, hp, hc, _⟩ :=
    ofpFold_fields k p0 x x0 mcal k.listFramesParamStep.length h1
  rw [objective_function_param, ofpFold, h5, h6, hm, hr, hp, hc]

/-- Concrete two-sampled-frame instance for C3: all marker, table and
rotation residuals vanish, the poses of the two sampled frames are
`[1, 0]` and `[2, 0]`, and the supplied initial pose is `[0, 0]`. -/
noncomputable def kccD : KCC where
  markersModel := ["M0", "TableA", "TableB"]
  closedLoopMarkers := ["TableA", "TableB"]
  trackedMarkers := ["M0", "TableA", "TableB"]
  qParameterIndex := [1]
  qKinematicIndex := [0]
  nbQ := 2
  nbQrows := 2
  weightsParam := [1, 1, 1, 1, 1]
  weightsIk := [1, 1, 1, 1, 1]
  markersAt := fun _ => [[0, 0, 0], [0, 0, 0], [0, 0, 0]]
  rotAt := fun _ => [[1, 0, 0], [0, 1, 0], [0, 0, 1]]
  jacTable := fun _ => []
  jacModel := fun _ => []
  jacRot := fun _ => []
  jacCont := fun _ => []
  jacPivot := fun _ => []
  nbFramesIkStep := 2
  qIkInitialGuess0 := [0, 0]
  qOutput0 := fun _ => [0, 0]
  xp := fun _ => [[0, 0, 0], [0, 0, 0], [0, 0, 0]]
  solveLS := fun _ _ => [0]
  solveIp := fun _ _ => [0]
  ipSuccess := fun _ => true
  listFramesParamStep := [0, 1]

noncomputable def p0D : List ℝ := [0]

noncomputable def xD : ℕ → List ℝ := fun f => if f = 0 then [1, 0] else [2, 0]

noncomputable def x0D : List ℝ := [0, 0]

noncomputable def mcalD : ℕ → List (List ℝ) := fun _ => [[0, 0, 0], [0, 0, 0], [0, 0, 0]]

noncomputable def wD : List ℝ := [1, 1, 1, 1, 1]

theorem kccD_Q0 : ofpQ kccD p0D xD 0 = [1, 0] := rfl

theorem kccD_Q1 : ofpQ kccD p0D xD 1 = [2, 0] := rfl

theorem kccD_t5 (f : ℕ) : ofp_t5 kccD p0D xD mcalD f = 0 := by
  show sqDist [(0 : ℝ), 0, 0] [0, 0, 0] = 0
  exact sqDist_self _

theorem kccD_t6 (f : ℕ) : ofp_t6 kccD p0D xD mcalD f = 0 := by
  show sqDist [(0 : ℝ), 0] [0, 0] = 0
  exact sqDist_self _

theorem kccD_mark (f : ℕ) : ofp_mark kccD p0D xD mcalD f = 0 := by
  show (List.map _ (List.range 1)).sum = 0
  rw [show List.range 1 = [0] from rfl]
  simp only [List.map_cons, List.map_nil, List.sum_cons, List.sum_nil]
  rw [show (((penalty_open_loop_markers kccD.markersModel
      (tableMarkersIdxOf kccD.markersModel) (ofpVect kccD p0D xD f)
      (ofpThorax kccD mcalD f)).1.drop 0).take 3) = [(0 : ℝ), 0, 0] from rfl]
  rw [show (((penalty_open_loop_markers kccD.markersModel
      (tableMarkersIdxOf kccD.markersModel) (ofpVect kccD p0D xD f)
      (ofpThorax kccD mcalD f)).2.drop 0).take 3) = [(0 : ℝ), 0, 0] from rfl]
  rw [sqDist_self]
  ring

theorem kccD_rot (f : ℕ) : ofp_rot kccD p0D xD f = 0 := by
  show ([(0 : ℝ), 0, 0, 0, 1 - 1].map (fun i => i ^ 2)).sum = 0
  norm_num

theorem pivot_sq_zero_of_not_gt (q : List ℝ)
    (h : ¬ (q.getD (q.length - 2) 0 + q.getD (q.length - 1) 0 > 7 * Real.pi / 10)) :
    ((theta_pivot_penalty q).1.getD 0 0 - (theta_pivot_penalty q).2.getD 0 0) ^ 2 = 0 := by
  rw [theta_pivot_penalty]
  rw [if_neg h]
  norm_num

theorem kccD_pivot0 : ofp_pivot kccD p0D xD 0 = 0 := by
  rw [ofp_pivot, kccD_Q0]
  apply pivot_sq_zero_of_not_gt
  show ¬ ((1 : ℝ) + 0 > 7 * Real.pi / 10)
  push_neg
  nlinarith [Real.pi_gt_three]

theorem kccD_pivot1 : ofp_pivot kccD p0D xD 1 = 0 := by
  rw [ofp_pivot, kccD_Q1]
  apply pivot_sq_zero_of_not_gt
  show ¬ ((2 : ℝ) + 0 > 7 * Real.pi / 10)
  push_neg
  nlinarith [Real.pi_gt_three]

theorem kccD_cont0 : contVal (ofpQ kccD p0D xD 0) x0D = 1 := by
  rw [kccD_Q0]
  show ((1 : ℝ) - 0) ^ 2 + (((0 : ℝ) - 0) ^ 2 + 0) = 1
  norm_num

theorem kccD_cont1 : contVal (ofpQ kccD p0D xD 1) (ofpQ kccD p0D xD 0) = 1 := by
  rw [kccD_Q1, kccD_Q0]
  show ((2 : ℝ) - 1) ^ 2 + (((0 : ℝ) - 0) ^ 2 + 0) = 1
  norm_num

/-- Counterexample to C3: on `kccD` every table, marker and rotation
residual vanishes, so the claimed objective reduces to the chained
continuity terms and equals 2, while the code's objective is 0 — the
pivot and continuity contributions of all but the last sampled frame are
dropped, and the last continuity term is 0 because its target aliases the
current pose. -/
theorem claim_C3_counterexample :
    objective_function_param kccD p0D xD x0D mcalD wD = 0 ∧
    objective_function_param_spec kccD p0D xD x0D mcalD wD = 2 ∧
    ¬ (objective_function_param kccD p0D xD x0D mcalD wD =
       objective_function_param_spec kccD p0D xD x0D mcalD wD) := by
  have hlen : kccD.listFramesParamStep.length = 2 := rfl
  have hcode : objective_function_param kccD p0D xD x0D mcalD wD = 0 := by
    obtain ⟨h5, h6, hm, hr, hp, hc, _⟩ :=
      ofpFold_fields kccD p0D xD x0D mcalD kccD.listFramesParamStep.length
        (by rw [hlen]; omega)
    rw [objective_function_param, ofpFold, h5, h6, hm, hr, hp, hc]
    rw [hlen]
    rw [show List.range 2 = [0, 1] from rfl]
    simp only [List.map_cons, List.map_nil, List.sum_cons, List.sum_nil]
    rw [kccD_t5 0, kccD_t5 1, kccD_t6 0, kccD_t6 1, kccD_mark 0, kccD_mark 1,
      kccD_rot 0, kccD_rot 1, kccD_pivot1]
    rw [if_neg (by omega)]
    norm_num
  have hspec : objective_function_param_spec kccD p0D xD x0D mcalD wD = 2 := by
    rw [objective_function_param_spec, hlen]
    rw [show List.range 2 = [0, 1] from rfl]
    simp only [List.map_cons, List.map_nil, List.sum_cons, List.sum_nil]
    rw [kccD_t5 0, kccD_t5 1, kccD_t6 0, kccD_t6 1, kccD_mark 0, kccD_mark 1,
      kccD_rot 0, kccD_rot 1, kccD_pivot0, kccD_pivot1]
    simp only [if_true]
    rw [if_neg (by omega : ¬ (1 = 0))]
    rw [show (1 - 1 : ℕ) = 0 from rfl]
    rw [kccD_cont0, kccD_cont1]
    rw [show wD.getD 3 0 = 1 from rfl]
    norm_num
  exact ⟨hcode, hspec, by rw [hcode, hspec]; norm_num⟩

/-- Witness for the amended C3 at the concrete instance `kccD`. -/
theorem claim_C3_amended_witness :
    (1 ≤ kccD.listFramesParamStep.length) ∧
    objective_function_param kccD p0D xD x0D mcalD wD =
      wD.getD 0 0 * (((List.range kccD.listFramesParamStep.length).map
          (fun f => ofp_t5 kccD p0D xD mcalD f)).sum +
        ((List.range kccD.listFramesParamStep.length).map
          (fun f => ofp_t6 kccD p0D xD mcalD f)).sum) +
      wD.getD 1 0 * ((List.range kccD.listFramesParamStep.length).map
          (fun f => ofp_mark kccD p0D xD mcalD f)).sum +
      wD.getD 2 0 * ofp_pivot kccD p0D xD (kccD.listFramesParamStep.length - 1) +
      wD.getD 3 0 * (if kccD.listFramesParamStep.length = 1
          then contVal (ofpQ kccD p0D xD 0) x0D else 0) +
      wD.getD 4 0 * ((List.range kccD.listFramesParamStep.length).map
          (fun f => ofp_rot kccD p0D xD f)).sum :=
  ⟨by decide, claim_C3_amended kccD p0D xD x0D mcalD wD (by decide)⟩
